import Mathlib

/-!
# Verification of the Etsy listing agent pipeline orchestrator

Shallow embedding of the stage-transition logic (`workflow.py`), the review
nodes and fan-in aggregator (`nodes.py`), the listing validators
(`validators.py`) and the data model (`state.py`) of the
`etsy-listing-agent` repository, together with theorems settling the
specification claims about them.

Modelling conventions:
* Python strings that are only compared / stored are Lean `String`s; strings
  that undergo character-level processing (splitting, stripping, truncation)
  are `List Char` (`PyStr`).
* Python dicts holding JSON data are association lists (`PyV.dict`);
  `dict.get(k, default)` is `PyV.get` + `Option.getD`.
* `retry_counts` (a dict with `.get(stage, 0)` reads) is a total function
  `String → Nat`.
* Python floats (`cost_usd`) are modelled as rationals.
* File I/O is made explicit: a node that reads a file takes the read's
  outcome (`Except String α`); a node that writes returns the written value.
* The Layer-3 semantic call's outcome (response text or raised exception)
  is an explicit `Except String String` input.
-/

namespace EtsyAgent

/-- `ReviewLevel` from `state.py`: Schema(1) -> Rules(2) -> Semantic(3). -/
inductive ReviewLevel where
  | SCHEMA
  | RULES
  | SEMANTIC
deriving DecidableEq, Repr

/-- `ReviewResult` dataclass from `state.py`. -/
structure ReviewResult where
  passed : Bool
  level : ReviewLevel
  errors : List String := []
  feedback : Option String := none
deriving DecidableEq, Repr

/-- The slice of `ProductState` (`state.py`) that the stage-transition logic
and the post-aggregation router read. `retry_counts` models the Python dict
(read via `.get(stage, 0)`) as a total function. -/
structure PState where
  stage : String
  preprocessing_review : Option ReviewResult := none
  strategy_review : Option ReviewResult := none
  nanobanana_review : Option ReviewResult := none
  listing_review : Option ReviewResult := none
  retry_counts : String → Nat := fun _ => 0
  max_retries : Nat := 3
  nanobanana_success : Bool := false
  generate_images : Bool := false

/-- `should_retry` from `workflow.py`:
`state["retry_counts"].get(stage, 0) < state["max_retries"]`. -/
def should_retry (s : PState) (stage : String) : Bool :=
  decide (s.retry_counts stage < s.max_retries)

/-- Python truthiness of `review and review.passed` on an
`Optional[ReviewResult]`. -/
def reviewPassed : Option ReviewResult → Bool
  | some r => r.passed
  | none => false

/-- `get_next_stage` from `workflow.py`, translated branch by branch. -/
def get_next_stage (s : PState) : String :=
  if s.stage = "pending" then "preprocessing"
  else if s.stage = "preprocessing" then "preprocessing_review"
  else if s.stage = "preprocessing_review" then
    (if reviewPassed s.preprocessing_review then "strategy"
     else if should_retry s "preprocessing" then "preprocessing" else "failed")
  else if s.stage = "strategy" then "strategy_review"
  else if s.stage = "strategy_review" then
    (if reviewPassed s.strategy_review then "nanobanana"
     else if should_retry s "strategy" then "strategy" else "failed")
  else if s.stage = "nanobanana" then "nanobanana_review"
  else if s.stage = "nanobanana_review" then
    (if reviewPassed s.nanobanana_review then "listing"
     else if should_retry s "nanobanana" then "nanobanana" else "failed")
  else if s.stage = "listing" then "listing_review"
  else if s.stage = "listing_review" then
    (if reviewPassed s.listing_review then "completed"
     else if should_retry s "listing" then "listing" else "failed")
  else if s.stage = "completed" ∨ s.stage = "failed" then s.stage
  else "failed"

/-- `_route_after_preprocess_review` from `workflow.py`. -/
def route_after_preprocess_review (s : PState) : String :=
  let next_stage := get_next_stage s
  if next_stage = "strategy" then "strategy"
  else if next_stage = "preprocessing" then "preprocess"
  else "failed"

/-- `_route_after_aggregator` from `workflow.py`. -/
def route_after_aggregator (s : PState) : String :=
  if ¬ s.nanobanana_success then "failed"
  else if s.generate_images then "image_gen"
  else "listing_review"

/-- The closed stage enumeration `StageType` from `state.py`. -/
def stageEnumeration : List String :=
  ["pending", "preprocessing", "preprocessing_review", "strategy",
   "strategy_review", "nanobanana", "nanobanana_review", "listing",
   "listing_review", "completed", "failed"]

/-- Incrementing one entry of the `retry_counts` dict:
`state["retry_counts"][k] = state["retry_counts"].get(k, 0) + 1`. -/
def bumpCount (f : String → Nat) (k : String) : String → Nat :=
  fun k2 => if k2 = k then f k + 1 else f k2

/-- The state effect of `preprocess_node` (`nodes.py`): sets
`state["stage"] = "preprocessing"`. -/
def preprocess_work_update (s : PState) : PState :=
  { s with stage := "preprocessing" }

/-- The state effect of the validation path of `preprocess_review_node`
(`nodes.py`, lines 583-589) once the layered review has computed a verdict:
the retry count for `"preprocessing"` is incremented exactly when the
verdict failed, the verdict is stored, and the stage becomes
`"preprocessing_review"`. -/
def preprocess_review_update (s : PState) (verdict : ReviewResult) : PState :=
  { s with
    retry_counts :=
      if verdict.passed then s.retry_counts
      else bumpCount s.retry_counts "preprocessing",
    preprocessing_review := some verdict,
    stage := "preprocessing_review" }

/-- The full per-execution state effect of `preprocess_review_node`
(`nodes.py`).  When reading `product_data.json` raises
(`FileNotFoundError` / `JSONDecodeError`, lines 555-565) the node stores a
failing SCHEMA verdict and returns early: `retry_counts` is NOT updated on
this branch.  Otherwise the layered review computes a verdict and the node
stores it, incrementing the count exactly when it failed (lines 583-589). -/
def preprocess_review_node_step (s : PState) :
    Except String ReviewResult → PState
  | .error e =>
    { s with
      preprocessing_review := some
        { passed := false, level := .SCHEMA,
          errors := ["Failed to read product_data.json: " ++ e] },
      stage := "preprocessing_review" }
  | .ok review_result => preprocess_review_update s review_result

/-- The preprocess work/review loop of the compiled graph: each list element
is the outcome of one execution's review — `.error e` when reading
`product_data.json` fails (the early-return branch of
`preprocess_review_node`), `.ok v` when the layered review computed the
verdict `v`.  Returns the number of executions of `preprocess_node` together
with the state at the first routing away from the retry edge
(`_route_after_preprocess_review`).  An empty outcome list means no
execution is observed. -/
def runPreprocessLoop (s : PState) :
    List (Except String ReviewResult) → Nat × PState
  | [] => (0, s)
  | o :: os =>
    let s1 := preprocess_review_node_step (preprocess_work_update s) o
    let route := route_after_preprocess_review s1
    if route = "preprocess" then
      let rest := runPreprocessLoop s1 os
      (rest.1 + 1, rest.2)
    else
      (1, { s1 with stage := if route = "strategy" then "strategy" else "failed" })

/-- A failing review verdict, as the tests build them. -/
def failVerdict : ReviewResult :=
  { passed := false, level := .RULES, errors := ["test error"] }

/-- A passing review verdict. -/
def passVerdict : ReviewResult :=
  { passed := true, level := .RULES, errors := [] }

/-! ## Python string primitives, on `List Char` -/

/-- A Python string undergoing character-level processing. -/
abbrev PyStr := List Char

/-- The Python whitespace set used by no-argument `str.split()` and
`str.strip()`. -/
def pyIsSpace (c : Char) : Bool :=
  c = ' ' || c = '\t' || c = '\n' || c = '\r' || c = '\x0b' || c = '\x0c'

/-- `s.split(sep)` for a one-character separator: splits at every separator
occurrence and keeps empty pieces (Python semantics). -/
def pySplitOn (p : Char → Bool) : PyStr → List PyStr
  | [] => [[]]
  | c :: cs =>
    if p c then [] :: pySplitOn p cs
    else
      match pySplitOn p cs with
      | [] => [[c]]
      | h :: t => (c :: h) :: t

/-- `str.strip()` with no argument: drop whitespace from both ends. -/
def pyStrip (s : PyStr) : PyStr :=
  ((s.dropWhile pyIsSpace).reverse.dropWhile pyIsSpace).reverse

/-- `str.lstrip()` with no argument. -/
def pyLStrip (s : PyStr) : PyStr := s.dropWhile pyIsSpace

/-- `str.strip(chars)`: drop characters of the given set from both ends. -/
def pyStripChars (chars : PyStr) (s : PyStr) : PyStr :=
  ((s.dropWhile (chars.contains ·)).reverse.dropWhile
    (chars.contains ·)).reverse

/-- No-argument `str.split()`: split on whitespace runs, dropping empty
pieces. -/
def pyWords (s : PyStr) : List PyStr :=
  (pySplitOn pyIsSpace s).filter (fun w => w ≠ [])

/-- `str.lower()` (the processed rule keywords are ASCII). -/
def pyLower (s : PyStr) : PyStr := s.map Char.toLower

/-- Python's `needle in hay` substring test. -/
def pyContains (hay needle : PyStr) : Bool :=
  needle.isPrefixOf hay ||
    match hay with
    | [] => false
    | _ :: t => pyContains t needle

/-- `s.startswith(pre)`. -/
def pyStartswith (s pre : PyStr) : Bool := pre.isPrefixOf s

/-- `str.title()`, used for `direction.replace("_", " ").title()`:
uppercase the first letter of each alphabetic run, lowercase the rest. -/
def pyTitleGo : Bool → PyStr → PyStr
  | _, [] => []
  | prevAlpha, c :: cs =>
    if c.isAlpha then
      (if prevAlpha then c.toLower else c.toUpper) :: pyTitleGo true cs
    else c :: pyTitleGo false cs

/-- `str.title()`. -/
def pyTitle (s : PyStr) : PyStr := pyTitleGo false s

/-- `s.replace(a, b)` for one-character arguments. -/
def pyReplaceChar (a b : Char) (s : PyStr) : PyStr :=
  s.map (fun c => if c = a then b else c)

/-! ## JSON-like Python values -/

/-- A JSON-like Python value, as produced by `json.loads`.  Dicts are
association lists (later bindings win on lookup, matching duplicate-key
behaviour of `json.loads`). -/
inductive PyV where
  | str : PyStr → PyV
  | num : Int → PyV
  | bool : Bool → PyV
  | list : List PyV → PyV
  | dict : List (String × PyV) → PyV
  | none : PyV

/-- `d.get(k)` / `k in d`-style lookup (`Option.isSome` is presence). -/
def PyV.get : PyV → String → Option PyV
  | .dict entries, k =>
    entries.foldl (fun acc e => if e.1 = k then some e.2 else acc) Option.none
  | _, _ => Option.none

/-- `d[k] = v` dict assignment. -/
def PyV.set : PyV → String → PyV → PyV
  | .dict entries, k, v =>
    if entries.any (fun e => e.1 = k) then
      .dict (entries.map (fun e => if e.1 = k then (e.1, v) else e))
    else .dict (entries ++ [(k, v)])
  | d, _, _ => d

/-! ## Layer 3: `_run_semantic_review` (`nodes.py`) -/

/-- The error-extraction loop of `_run_semantic_review`'s FAIL branch:
walks the response lines with an `in_issues` flag, collecting `- `-prefixed
lines between an `Issues found`/`issues:` marker and a `Suggestions`
marker. -/
def extractIssuesGo : Bool → List PyStr → List String
  | _, [] => []
  | in_issues, line :: rest =>
    if pyContains line "Issues found".toList ||
        pyContains (pyLower line) "issues:".toList then
      extractIssuesGo true rest
    else
      let e :=
        if in_issues && pyStartswith (pyStrip line) ['-'] then
          [String.mk (pyStrip ((pyStrip line).drop 1))]
        else []
      let in_issues' := if pyContains line "Suggestions".toList
        then false else in_issues
      e ++ extractIssuesGo in_issues' rest

/-- Error extraction from a FAIL response (`_run_semantic_review`). -/
def extractIssues (text : PyStr) : List String :=
  extractIssuesGo false (pySplitOn (fun c => c = '\n') text)

/-- `_run_semantic_review` from `nodes.py`.  `review_skill` is the loaded
`REVIEW.md` content (empty string when the file is missing); `call` is the
outcome of the `call_claude` call, with a raised exception embedded as
`.error` (the `except Exception` branch). -/
def run_semantic_review (review_skill : String)
    (call : Except String String) : ReviewResult :=
  if review_skill = "" then
    { passed := true, level := .SEMANTIC, errors := [] }
  else
    match call with
    | .error e =>
      { passed := true, level := .SEMANTIC, errors := [],
        feedback := some ("L3 review skipped due to error: " ++ e) }
    | .ok response =>
      let response_text := pyStrip response.toList
      if pyContains response_text "SEMANTIC_REVIEW_RESULT: PASS".toList then
        { passed := true, level := .SEMANTIC, errors := [] }
      else if pyContains response_text
          "SEMANTIC_REVIEW_RESULT: FAIL".toList then
        let errors := extractIssues response_text
        { passed := false, level := .SEMANTIC,
          errors := if errors = []
            then ["Semantic review failed, see feedback"] else errors,
          feedback := some (String.mk response_text) }
      else
        { passed := true, level := .SEMANTIC, errors := [],
          feedback := some ("L3 review response unclear: " ++
            String.mk (response_text.take 200)) }

/-! ## `_run_layered_review` and the review nodes' verdict logic -/

/-- `_run_layered_review` from `nodes.py`; exactly as in the source it is
parametric in the two validator functions. -/
def run_layered_review {α : Type} (schema_validator : α → ReviewResult)
    (rules_validator : α → ReviewResult) (data : α) : ReviewResult :=
  let schema_result := schema_validator data
  if ¬ schema_result.passed then schema_result
  else
    let rules_result := rules_validator data
    if ¬ rules_result.passed then rules_result
    else { passed := true, level := .RULES, errors := [] }

/-- A review node's outcome: the stored verdict plus whether the guarded
`_run_semantic_review` call was reached. -/
structure NodeReview where
  verdict : ReviewResult
  l3_invoked : Bool
deriving DecidableEq

/-- Verdict computation of `preprocess_review_node` (`nodes.py`): layered
L1+L2 first; the Layer-3 call is reached only under
`review_result.passed and l3_active`, and a failing Layer-3 result replaces
the verdict (blocking).  `readResult` is the `product_data.json` read,
`l3res` the outcome of `_run_semantic_review` when reached. -/
def preprocess_review_logic {α : Type}
    (schemaV rulesV : α → ReviewResult) (readResult : Except String α)
    (l3_active : Bool) (l3res : ReviewResult) : NodeReview :=
  match readResult with
  | .error e =>
    { verdict :=
        { passed := false, level := .SCHEMA,
          errors := ["Failed to read product_data.json: " ++ e] },
      l3_invoked := false }
  | .ok data =>
    let review_result := run_layered_review schemaV rulesV data
    if review_result.passed && l3_active then
      if ¬ l3res.passed then { verdict := l3res, l3_invoked := true }
      else { verdict := review_result, l3_invoked := true }
    else { verdict := review_result, l3_invoked := false }

/-- Verdict computation of `strategy_review_node` (`nodes.py`): inline L1,
L2 with early returns, then the guarded Layer-3 call (blocking); on full
success the stored level is `SEMANTIC` when L3 was active and `RULES`
otherwise. -/
def strategy_review_logic {α : Type}
    (schemaV rulesV : α → ReviewResult) (readResult : Except String α)
    (l3_active : Bool) (l3res : ReviewResult) : NodeReview :=
  match readResult with
  | .error e =>
    { verdict :=
        { passed := false, level := .SCHEMA,
          errors := ["Failed to read image_strategy.json: " ++ e] },
      l3_invoked := false }
  | .ok data =>
    let schema_result := schemaV data
    if ¬ schema_result.passed then
      { verdict := schema_result, l3_invoked := false }
    else
      let rules_result := rulesV data
      if ¬ rules_result.passed then
        { verdict := rules_result, l3_invoked := false }
      else if l3_active then
        if ¬ l3res.passed then { verdict := l3res, l3_invoked := true }
        else
          { verdict := { passed := true, level := .SEMANTIC, errors := [] },
            l3_invoked := true }
      else
        { verdict := { passed := true, level := .RULES, errors := [] },
          l3_invoked := false }

/-- Verdict computation of `nanobanana_review_node` (`nodes.py`): same shape
as the strategy review (L1, L2 early returns, blocking L3). -/
def nanobanana_review_logic {α : Type}
    (schemaV rulesV : α → ReviewResult) (readResult : Except String α)
    (l3_active : Bool) (l3res : ReviewResult) : NodeReview :=
  match readResult with
  | .error e =>
    { verdict :=
        { passed := false, level := .SCHEMA,
          errors := ["Failed to load prompts file: " ++ e] },
      l3_invoked := false }
  | .ok data =>
    let schema_result := schemaV data
    if ¬ schema_result.passed then
      { verdict := schema_result, l3_invoked := false }
    else
      let rules_result := rulesV data
      if ¬ rules_result.passed then
        { verdict := rules_result, l3_invoked := false }
      else if l3_active then
        if ¬ l3res.passed then { verdict := l3res, l3_invoked := true }
        else
          { verdict := { passed := true, level := .SEMANTIC, errors := [] },
            l3_invoked := true }
      else
        { verdict := { passed := true, level := .RULES, errors := [] },
          l3_invoked := false }

/-! ## Fan-in aggregator (`prompt_aggregator_node`, `nodes.py`) -/

/-- One fan-out task result, an element of `prompt_results` as returned by
`prompt_node`.  `cost_usd` (a Python float) is modelled as a rational. -/
structure PromptResult where
  direction : String
  prompt : String := ""
  success : Bool := false
  error : Option String := none
  cost_usd : ℚ := 0
  input_tokens : Nat := 0
  output_tokens : Nat := 0
deriving DecidableEq

/-- An entry of `product_data["images"]`: a dict (with an optional
`"filename"` key), a plain string, or anything else. -/
inductive ImgEntry where
  | obj (filename : Option String)
  | str (s : String)
  | other
deriving DecidableEq

/-- The fields of `product_data.json` the aggregator reads; a failed load
gives the empty dict, i.e. all defaults. -/
structure ProductData where
  category : String := ""
  style : String := ""
  materials : List String := []
  images : List ImgEntry := []

/-- A strategy slot, restricted to the fields the aggregator reads
(`type`, `description`, `rationale`, `creative_direction.style_series`);
`Option` marks key presence for the `dict.get(key, default)` reads. -/
structure SlotData where
  type : String := ""
  description : Option String := none
  rationale : Option String := none
  cd_style_series : Option String := none
deriving DecidableEq

/-- `slot_map` lookup: built by
`for s in strategy["slots"]: slot_map[s.get("type", "")] = s`,
so later slots overwrite earlier ones with the same type. -/
def slotMap (slots : List SlotData) (ty : String) : Option SlotData :=
  slots.foldl (fun acc s => if s.type = ty then some s else acc) Option.none

/-- Image filename extraction from `product_data.get("images", [])[:3]`:
dict entries contribute their `"filename"` value, plain strings themselves,
anything else is skipped. -/
def extractImageFilenames (images : List ImgEntry) : List String :=
  (images.take 3).filterMap fun img =>
    match img with
    | .obj (some f) => some f
    | .obj Option.none => Option.none
    | .str s => some s
    | .other => Option.none

/-- Aggregation context: everything `prompt_aggregator_node` reads besides
`prompt_results` — the loaded product data, the strategy slots, and whether
`packaging_box.jpg` exists in the product directory. -/
structure AggCtx where
  product_id : String
  product_data : ProductData := {}
  slots : List SlotData := []
  packaging_asset_exists : Bool := false

/-- The prompt object built for one task result (`prompt_obj` in the
source); `index` is the 1-based position in the results list. -/
structure PromptObj where
  index : Nat
  type : String
  style_series : String
  type_name : String
  goal : String
  reference_images : List String
  prompt : String
deriving DecidableEq

/-- The body of the aggregator's `for i, result in enumerate(...)` loop for
one result at position `i`. -/
def promptObjOf (ctx : AggCtx) (image_filenames : List String) (i : Nat)
    (result : PromptResult) : PromptObj :=
  let direction := result.direction
  let slot := slotMap ctx.slots direction
  let ref_images :=
    if direction = "packaging" then
      let base_refs := if image_filenames = []
        then ["ref1.jpg", "ref2.jpg", "ref3.jpg"] else image_filenames
      if ctx.packaging_asset_exists then base_refs ++ ["packaging_box.jpg"]
      else base_refs
    else
      if image_filenames = []
        then ["ref1.jpg", "ref2.jpg", "ref3.jpg"] else image_filenames
  { index := i,
    type := direction,
    style_series := (slot.bind (fun s => s.cd_style_series)).getD "",
    type_name := (slot.bind (fun s => s.description)).getD
      (String.mk (pyTitle (pyReplaceChar '_' ' ' direction.toList))),
    goal := (slot.bind (fun s => s.rationale)).getD "",
    reference_images := ref_images,
    prompt := result.prompt }

/-- The `enumerate(prompt_results, 1)` loop building `prompts_array`. -/
def buildPromptsArray (ctx : AggCtx) (image_filenames : List String) :
    Nat → List PromptResult → List PromptObj
  | _, [] => []
  | i, r :: rs =>
    promptObjOf ctx image_filenames i r ::
      buildPromptsArray ctx image_filenames (i + 1) rs

/-- The merged artifact (`output_data`) the aggregator persists. -/
structure NBOutput where
  product_id : String
  category : String
  style : String
  materials : List String
  prompts : List PromptObj
deriving DecidableEq

/-- The aggregator's observable outcome: the artifact written (the write to
`{product_id}_NanoBanana_Prompts.json` is unconditional in the source) plus
the returned state updates. -/
structure AggResult where
  written_file : String
  written : NBOutput
  nanobanana_success : Bool
  total_cost : ℚ
  stage : String
deriving DecidableEq

/-- `prompt_aggregator_node` from `nodes.py` (pure core).  The single source
loop is expressed as the prompts-array construction plus the failure count
and cost sum over the same result list. -/
def prompt_aggregator (ctx : AggCtx) (prompt_results : List PromptResult) :
    AggResult :=
  let image_filenames := extractImageFilenames ctx.product_data.images
  let prompts_array := buildPromptsArray ctx image_filenames 1 prompt_results
  let failed := (prompt_results.filter (fun r => ¬ r.success)).length
  let total_cost := (prompt_results.map (fun r => r.cost_usd)).sum
  { written_file := ctx.product_id ++ "_NanoBanana_Prompts.json",
    written :=
      { product_id := ctx.product_id,
        category := ctx.product_data.category,
        style := ctx.product_data.style,
        materials := ctx.product_data.materials,
        prompts := prompts_array },
    nanobanana_success := failed == 0,
    total_cost := total_cost,
    stage := "nanobanana_aggregated" }

/-- Erase the positional `index` field of a prompt object. -/
def PromptObj.eraseIndex (p : PromptObj) : PromptObj := { p with index := 0 }

/-- A successful `hero` task result. -/
def heroResult : PromptResult :=
  { direction := "hero", prompt := "prompt A", success := true }

/-- A successful `macro_detail` task result. -/
def macroResult : PromptResult :=
  { direction := "macro_detail", prompt := "prompt B", success := true }

/-- A failed task result (a task whose attempts were exhausted). -/
def failedResult : PromptResult :=
  { direction := "wearing_a", prompt := "", success := false,
    error := some "Failed after 2 attempts (agent errors)" }

/-- A minimal aggregation context. -/
def ctxEx : AggCtx := { product_id := "R001" }


/-! ## Tag auto-fix (`_auto_fix_tags`, `nodes.py`) -/

/-- `_ETSY_TAG_MAX_CHARS` from `nodes.py`. -/
def ETSY_TAG_MAX_CHARS : Nat := 20

/-- The tag-list parse shared by `_auto_fix_tags` and
`validate_listing_rules`:
`[t.strip() for t in tags.split(",") if t.strip()]`. -/
def parseTagList (tags : PyStr) : List PyStr :=
  ((pySplitOn (fun c => c = ',') tags).map pyStrip).filter (fun t => t ≠ [])

/-- The word-boundary truncation loop of `_auto_fix_tags`: greedily extend
`truncated` with the next word while the candidate
(`f"{truncated} {word}".strip() if truncated else word`) stays within the
limit; stop at the first word that does not fit. -/
def truncateWords (truncated : PyStr) : List PyStr → PyStr
  | [] => truncated
  | word :: words =>
    let candidate :=
      if truncated = [] then word else pyStrip (truncated ++ ' ' :: word)
    if candidate.length ≤ ETSY_TAG_MAX_CHARS then truncateWords candidate words
    else truncated

/-- The fix applied to one over-long tag:
`tag_list[i] = truncated or tag[:_ETSY_TAG_MAX_CHARS]`. -/
def fixTag (tag : PyStr) : PyStr :=
  let truncated := truncateWords [] (pyWords tag)
  if truncated = [] then tag.take ETSY_TAG_MAX_CHARS else truncated

/-- `sep.join(parts)`. -/
def joinWith (sep : PyStr) : List PyStr → PyStr
  | [] => []
  | [t] => t
  | t :: ts => t ++ sep ++ joinWith sep ts

/-- `", ".join(tag_list)`. -/
def joinTags (l : List PyStr) : PyStr := joinWith [',', ' '] l

/-- `" ".join` of words (the shape `truncateWords` builds). -/
def joinWords (l : List PyStr) : PyStr := joinWith [' '] l

/-- `_auto_fix_tags` from `nodes.py`: parse the comma-separated `tags`
string, truncate every tag over the 20-character limit at a word boundary
(falling back to a raw 20-character cut), and rewrite `data["tags"]` iff
some tag was fixed.  The source's in-place indexed loop is the map; its
`fixed` flag is the `any`. -/
def auto_fix_tags (data : PyV) : PyV × Bool :=
  match data.get "tags" with
  | some (.str tags) =>
    if tags = [] then (data, false)
    else
      let tag_list := parseTagList tags
      let fixed := tag_list.any (fun t => ETSY_TAG_MAX_CHARS < t.length)
      let newList := tag_list.map
        (fun t => if ETSY_TAG_MAX_CHARS < t.length then fixTag t else t)
      if fixed then (data.set "tags" (.str (joinTags newList)), true)
      else (data, false)
  | _ => (data, false)

/-! ## Listing validators (`validators.py`) -/

/-- The deployment-configured banned lists read by `validate_listing_rules`
(loaded from `config/validation_rules.py`, which is deliberately not in the
repository; `config.example/validation_rules.py` ships placeholders). -/
structure RulesConfig where
  banned_title_adjectives : List String := []
  banned_title_phrases : List String := []

/-- The placeholder configuration from
`config.example/validation_rules.py`. -/
def exampleRulesConfig : RulesConfig :=
  { banned_title_adjectives := ["unique", "beautiful", "perfect"],
    banned_title_phrases := ["gift for him", "gift for her", "free shipping"] }

/-- `isinstance(x, str) and len(x) > 0` on an optional dict value. -/
def isNonemptyStr : Option PyV → Bool
  | some (.str s) => !s.isEmpty
  | _ => false

/-- `isinstance(x, dict)` on an optional dict value. -/
def isDictV : Option PyV → Bool
  | some (.dict _) => true
  | _ => false

/-- `isinstance(x, list)` on an optional dict value. -/
def isListV : Option PyV → Bool
  | some (.list _) => true
  | _ => false

/-- The closing pattern shared by every validator in `validators.py`:
`if errors: return ReviewResult(passed=False, level, errors)` followed by
`return ReviewResult(passed=True, level, errors=[])`. -/
def reviewOf (lv : ReviewLevel) (errors : List String) : ReviewResult :=
  if errors ≠ [] then { passed := false, level := lv, errors := errors }
  else { passed := true, level := lv, errors := [] }

/-- `validate_listing_schema` from `validators.py` (Layer 1). -/
def validate_listing_schema (data : PyV) : ReviewResult :=
  let required_fields :=
    ["product_id", "title", "tags", "description", "attributes"]
  let missing := required_fields.filterMap (fun field =>
    if (data.get field).isNone then some ("Missing required field: " ++ field)
    else Option.none)
  if missing ≠ [] then
    { passed := false, level := .SCHEMA, errors := missing }
  else
    let errors :=
      (if ¬ isNonemptyStr (data.get "title") then
        ["title must be a non-empty string"] else []) ++
      (if ¬ isNonemptyStr (data.get "tags") then
        ["tags must be a non-empty comma-separated string"] else []) ++
      (if ¬ isNonemptyStr (data.get "description") then
        ["description must be a non-empty string"] else []) ++
      (if ¬ isDictV (data.get "attributes") then
        ["attributes must be an object"] else []) ++
      (if (data.get "long_tail_keywords").isSome ∧
          ¬ isListV (data.get "long_tail_keywords") then
        ["long_tail_keywords must be an array"] else [])
    reviewOf .SCHEMA errors

/-- `_check_title_subjective_adjectives`: whole-word containment via
space-padding. -/
def check_title_subjective_adjectives (cfg : RulesConfig)
    (title : PyStr) : List String :=
  let title_lower := pyLower title
  cfg.banned_title_adjectives.filterMap (fun adj =>
    if pyContains (' ' :: title_lower ++ [' ']) (' ' :: adj.toList ++ [' '])
    then
      some ("title contains banned subjective adjective: \x27" ++ adj ++
        "\x27")
    else Option.none)

/-- `_check_title_generic_phrases`. -/
def check_title_generic_phrases (cfg : RulesConfig)
    (title : PyStr) : List String :=
  let title_lower := pyLower title
  cfg.banned_title_phrases.filterMap (fun phrase =>
    if pyContains title_lower phrase.toList then
      some ("title contains banned generic phrase: \x27" ++ phrase ++ "\x27")
    else Option.none)

/-- One step of the `word_counts` dict build (insertion order preserved,
matching Python dict semantics). -/
def addWordCount (acc : List (PyStr × Nat)) (w : PyStr) :
    List (PyStr × Nat) :=
  if acc.any (fun e => e.1 = w) then
    acc.map (fun e => if e.1 = w then (e.1, e.2 + 1) else e)
  else acc ++ [(w, 1)]

/-- `_check_title_word_repetition`: count cleaned words longer than two
characters and report those appearing more than once. -/
def check_title_word_repetition (title : PyStr) : List String :=
  let words := pyWords (pyLower title)
  let word_counts := words.foldl (fun acc word =>
    let clean_word := pyStripChars ".,!?;:\x27\"".toList word
    if 2 < clean_word.length then addWordCount acc clean_word else acc) []
  word_counts.filterMap (fun e =>
    if 1 < e.2 then
      some ("title has repeated word: \x27" ++ String.mk e.1 ++
        "\x27 appears " ++ toString e.2 ++ " times")
    else Option.none)

/-- The line-start scan of `_check_description_no_markdown`: the first line
starting (after `lstrip`) with a header or list marker yields one error and
stops the loop. -/
def mdLineScan : List PyStr → List String
  | [] => []
  | line :: rest =>
    let stripped := pyLStrip line
    if pyStartswith stripped "# ".toList ||
        pyStartswith stripped "## ".toList ||
        pyStartswith stripped "### ".toList then
      ["description contains header markdown"]
    else if pyStartswith stripped "* ".toList ||
        pyStartswith stripped "- ".toList then
      ["description contains list markdown at line start"]
    else mdLineScan rest

/-- `_check_description_no_markdown`. -/
def check_description_no_markdown (description : PyStr) : List String :=
  let inline_patterns : List (String × String) :=
    [("**", "bold markdown"), ("__", "bold markdown"),
     ("```", "code block"), ("[](", "link markdown")]
  let inline_errors := inline_patterns.filterMap (fun pd =>
    if pyContains description pd.1.toList then
      some ("description contains " ++ pd.2 ++ ": \x27" ++ pd.1 ++ "\x27")
    else Option.none)
  inline_errors ++ mdLineScan (pySplitOn (fun c => c = '\n') description)

/-- `_check_long_tail_word_count`. -/
def check_long_tail_word_count (keywords : List PyV) : List String :=
  keywords.enum.filterMap (fun p =>
    match p.2 with
    | .str kw =>
      let word_count := (pyWords kw).length
      if word_count < 2 ∨ 6 < word_count then
        some ("long_tail_keywords[" ++ toString p.1 ++
          "] should be 2-6 words, got " ++ toString word_count ++ ": \x27" ++
          String.mk kw ++ "\x27")
      else Option.none
    | _ => Option.none)

/-- `validate_listing_rules` from `validators.py` (Layer 2). -/
def validate_listing_rules (cfg : RulesConfig) (data : PyV) : ReviewResult :=
  let title_errors :=
    match (data.get "title").getD (.str []) with
    | .str title =>
      (if 14 < (pyWords title).length then
        ["title exceeds 14 word limit, got " ++
          toString (pyWords title).length ++ " words"] else []) ++
      check_title_subjective_adjectives cfg title ++
      check_title_generic_phrases cfg title ++
      check_title_word_repetition title
    | _ => []
  let tv_errors :=
    if (data.get "title_variations").isSome then
      match (data.get "title_variations").getD (.list []) with
      | .list l =>
        if l.length ≠ 2 then
          ["title_variations should have exactly 2 items, got " ++
            toString l.length]
        else []
      | _ => ["title_variations must be an array"]
    else []
  let tag_errors :=
    match (data.get "tags").getD (.str []) with
    | .str tags =>
      if 0 < tags.length then
        let tag_list := parseTagList tags
        (if tag_list.length ≠ 13 then
          ["tags must have exactly 13 items, got " ++
            toString tag_list.length] else []) ++
        tag_list.enum.filterMap (fun p =>
          if 20 < p.2.length then
            some ("tag " ++ toString (p.1 + 1) ++
              " exceeds 20 character limit: \x27" ++ String.mk p.2 ++
              "\x27 (" ++ toString p.2.length ++ " chars)")
          else Option.none)
      else []
    | _ => []
  let ltk_errors :=
    match (data.get "long_tail_keywords").getD (.list []) with
    | .list long_tail =>
      if 0 < long_tail.length then
        (if long_tail.length ≠ 8 then
          ["long_tail_keywords should have 8 items, got " ++
            toString long_tail.length] else []) ++
        check_long_tail_word_count long_tail
      else []
    | _ => []
  let desc_errors :=
    match (data.get "description").getD (.str []) with
    | .str description =>
      (if description.length < 30 then
        ["description must be at least 30 characters, got " ++
          toString description.length] else []) ++
      check_description_no_markdown description
    | _ => []
  let errors :=
    title_errors ++ tv_errors ++ tag_errors ++ ltk_errors ++ desc_errors
  reviewOf .RULES errors

/-! ## `listing_review_node` verdict logic (`nodes.py`) -/

/-- Observable outcome of `listing_review_node`: the stored verdict, the
listing rewritten to disk when tags were auto-fixed, and whether the
guarded (advisory) Layer-3 call was reached. -/
structure ListingReviewOut where
  verdict : ReviewResult
  written : Option PyV
  l3_invoked : Bool

/-- Verdict computation of `listing_review_node`: read the listing, auto-fix
over-long tags (rewriting the file iff something was fixed), run the layered
L1+L2 review on the fixed data, and reach the Layer-3 call only under
`review_result.passed and l3_active` — its result is advisory and never
overrides the stored verdict. -/
def listing_review_logic (cfg : RulesConfig) (readResult : Except String PyV)
    (l3_active : Bool) (l3res : ReviewResult) : ListingReviewOut :=
  match readResult with
  | .error e =>
    { verdict :=
        { passed := false, level := .SCHEMA,
          errors := ["Failed to read listing: " ++ e] },
      written := Option.none, l3_invoked := false }
  | .ok data0 =>
    let fixed := auto_fix_tags data0
    let data := fixed.1
    let written := if fixed.2 then some data else Option.none
    let review_result :=
      run_layered_review validate_listing_schema (validate_listing_rules cfg)
        data
    { verdict := review_result,
      written := written,
      l3_invoked := review_result.passed && l3_active }

/-- A concrete listing that passes Layers 1–2 of the listing review under
the example configuration (13 short tags, clean title and description). -/
def exampleListing : PyV :=
  .dict
    [("product_id", .str "R001".toList),
     ("title", .str "Silver Band Ring".toList),
     ("tags", .str ("tag one, tag two, tag three, tag four, tag five, " ++
       "tag six, tag seven, tag eight, tag nine, tag ten, tag aa, " ++
       "tag bb, tag cc").toList),
     ("description", .str
       "A handcrafted silver ring made with care and quality metal.".toList),
     ("attributes", .dict [])]

/-- A listing whose first tag exceeds the 20-character limit
(`"moissanite engagement"`, 21 characters). -/
def exampleOverlongListing : PyV :=
  .dict [("tags", .str "moissanite engagement, ring".toList)]

/-- A passing Layer-3 semantic verdict (shape of the PASS branch of
`_run_semantic_review`). -/
def passSemVerdict : ReviewResult :=
  { passed := true, level := .SEMANTIC, errors := [] }

/-- A failing Layer-3 semantic verdict (shape of the FAIL branch of
`_run_semantic_review`). -/
def failSemVerdict : ReviewResult :=
  { passed := false, level := .SEMANTIC,
    errors := ["Semantic review failed, see feedback"],
    feedback := some "SEMANTIC_REVIEW_RESULT: FAIL" }


end EtsyAgent

namespace EtsyAgent

/-- C3: terminal stages are absorbing under `get_next_stage`. -/
theorem terminal_stages_absorbing (s : PState)
    (h : s.stage = "completed" ∨ s.stage = "failed") :
    get_next_stage s = s.stage := by
  rcases h with h | h <;> simp [get_next_stage, h]

/-- Witness for C3 at concrete states. -/
theorem terminal_stages_absorbing_witness :
    (({ stage := "completed" } : PState).stage = "completed" ∨
      ({ stage := "completed" } : PState).stage = "failed") ∧
    get_next_stage { stage := "completed" } = "completed" ∧
    get_next_stage { stage := "failed" } = "failed" :=
  ⟨Or.inl rfl,
   terminal_stages_absorbing { stage := "completed" } (Or.inl rfl),
   terminal_stages_absorbing { stage := "failed" } (Or.inr rfl)⟩

/-- C10: `get_next_stage` is total with a failure default: any stage value
outside the declared enumeration is sent to `"failed"`. -/
theorem next_stage_default_failed (s : PState)
    (h : s.stage ∉ stageEnumeration) :
    get_next_stage s = "failed" := by
  simp only [stageEnumeration, List.mem_cons, List.not_mem_nil, or_false,
    not_or] at h
  obtain ⟨h1, h2, h3, h4, h5, h6, h7, h8, h9, h10, h11⟩ := h
  simp [get_next_stage, h1, h2, h3, h4, h5, h6, h7, h8, h9, h10, h11]

section RetryClaims

/-- Helper: a failing verdict recorded by the validation path bumps the
stored count for `"preprocessing"` by one. -/
lemma review_update_fail_count (s : PState) (v : ReviewResult)
    (hv : v.passed = false) :
    (preprocess_review_update s v).retry_counts "preprocessing" =
      s.retry_counts "preprocessing" + 1 := by
  simp [preprocess_review_update, bumpCount, hv]

/-- Helper: the same count bump, phrased on the full node step. -/
lemma step_ok_fail_count (s : PState) (v : ReviewResult)
    (hv : v.passed = false) :
    (preprocess_review_node_step s (.ok v)).retry_counts "preprocessing" =
      s.retry_counts "preprocessing" + 1 :=
  review_update_fail_count s v hv

/-- Helper: a passing validated verdict routes the loop to `strategy`. -/
lemma route_of_pass (s : PState) (v : ReviewResult) (hv : v.passed = true) :
    route_after_preprocess_review
      (preprocess_review_node_step (preprocess_work_update s) (.ok v)) =
      "strategy" := by
  simp [route_after_preprocess_review, get_next_stage,
    preprocess_review_node_step, preprocess_review_update,
    preprocess_work_update, reviewPassed, hv]

/-- Helper: a failing validated verdict with room below the ceiling routes
the loop to a retry. -/
lemma route_of_fail_retry (s : PState) (v : ReviewResult)
    (hv : v.passed = false)
    (hc : s.retry_counts "preprocessing" + 1 < s.max_retries) :
    route_after_preprocess_review
      (preprocess_review_node_step (preprocess_work_update s) (.ok v)) =
      "preprocess" := by
  simp [route_after_preprocess_review, get_next_stage,
    preprocess_review_node_step, preprocess_review_update,
    preprocess_work_update, reviewPassed, hv, should_retry, bumpCount, hc]

/-- Helper: a failing validated verdict at the ceiling routes to `failed`. -/
lemma route_of_fail_exhausted (s : PState) (v : ReviewResult)
    (hv : v.passed = false)
    (hc : ¬ s.retry_counts "preprocessing" + 1 < s.max_retries) :
    route_after_preprocess_review
      (preprocess_review_node_step (preprocess_work_update s) (.ok v)) =
      "failed" := by
  simp [route_after_preprocess_review, get_next_stage,
    preprocess_review_node_step, preprocess_review_update,
    preprocess_work_update, reviewPassed, hv, should_retry, bumpCount, hc]

/-- Helper: a read failure with the stored count below the ceiling routes
the loop to a retry; the count is not incremented on this branch. -/
lemma route_of_read_error_retry (s : PState) (e : String)
    (hc : s.retry_counts "preprocessing" < s.max_retries) :
    route_after_preprocess_review
      (preprocess_review_node_step (preprocess_work_update s) (.error e)) =
      "preprocess" := by
  simp [route_after_preprocess_review, get_next_stage,
    preprocess_review_node_step, preprocess_work_update, reviewPassed,
    should_retry, hc]

/-- Helper: with `k` failing validated verdicts followed by one passing
verdict, and room for `k` counted retries below the ceiling, the work stage
runs `k + 1` times and then advances to `strategy`. -/
lemma runPreprocessLoop_fails_then_pass (k : Nat) : ∀ s : PState,
    s.retry_counts "preprocessing" + k < s.max_retries →
    (runPreprocessLoop s
        (List.replicate k (Except.ok failVerdict) ++
          [Except.ok passVerdict])).1 = k + 1 ∧
    (runPreprocessLoop s
        (List.replicate k (Except.ok failVerdict) ++
          [Except.ok passVerdict])).2.stage = "strategy" := by
  induction k with
  | zero =>
    intro s _
    simp only [List.replicate, List.nil_append, runPreprocessLoop]
    rw [route_of_pass s passVerdict rfl]
    exact ⟨rfl, rfl⟩
  | succ k ih =>
    intro s hs
    have hc : s.retry_counts "preprocessing" + 1 < s.max_retries := by omega
    simp only [List.replicate_succ, List.cons_append, runPreprocessLoop]
    rw [route_of_fail_retry s failVerdict rfl hc, if_pos rfl]
    have hrec := ih (preprocess_review_node_step (preprocess_work_update s)
      (Except.ok failVerdict))
    rw [step_ok_fail_count (preprocess_work_update s) failVerdict rfl]
      at hrec
    have hrec2 := hrec (by
      show s.retry_counts "preprocessing" + 1 + k < s.max_retries
      omega)
    refine ⟨?_, ?_⟩
    · show (runPreprocessLoop
          (preprocess_review_node_step (preprocess_work_update s)
            (Except.ok failVerdict))
          (List.replicate k (Except.ok failVerdict) ++
            [Except.ok passVerdict])).1 + 1 = k + 1 + 1
      rw [hrec2.1]
    · show (runPreprocessLoop
          (preprocess_review_node_step (preprocess_work_update s)
            (Except.ok failVerdict))
          (List.replicate k (Except.ok failVerdict) ++
            [Except.ok passVerdict])).2.stage = "strategy"
      exact hrec2.2

/-- C1 (counterexample): `retry_counts["preprocessing"]` does not count the
failing verdicts received so far.  When reading `product_data.json` fails,
`preprocess_review_node` stores a failing verdict but returns early without
updating the count: after one such execution a failing verdict is stored
while the count still reads 0.  Moreover two counted validation failures at
`max_retries = 2` already exhaust the budget: the loop stops in `failed`
after exactly two executions even though a third, passing verdict was
available, so a stage whose two failures were both counted is not retried
again. -/
theorem retry_counting_counterexample :
    reviewPassed
        (preprocess_review_node_step
            (preprocess_work_update { stage := "pending", max_retries := 2 })
            (.error "FileNotFoundError")).preprocessing_review = false ∧
    (preprocess_review_node_step
        (preprocess_work_update { stage := "pending", max_retries := 2 })
        (.error "FileNotFoundError")).retry_counts "preprocessing" = 0 ∧
    (runPreprocessLoop { stage := "pending", max_retries := 2 }
        [.ok failVerdict, .ok failVerdict, .ok passVerdict]).1 = 2 ∧
    (runPreprocessLoop { stage := "pending", max_retries := 2 }
        [.ok failVerdict, .ok failVerdict, .ok passVerdict]).2.stage =
      "failed" := by
  exact ⟨rfl, rfl, rfl, rfl⟩

/-- C1 (amended): from a review-gated stage with a stored failing verdict,
`next_stage` retries the work stage iff `retry_counts[stage] < max_retries`
and otherwise fails.  For the preprocessing stage the count tracks only the
failing verdicts recorded by the validation path: a validated failing
verdict bumps the count by one, while the `product_data.json` read-failure
branch stores a failing verdict without touching the counts.  Consequently
`max_retries + 1` total executions of the stage are possible: a single
passing execution covers `max_retries = 0`, and for `max_retries = m ≥ 1`
an uncounted read failure followed by `m - 1` validated failures and one
passing verdict yields `m + 1` executions ending in `strategy`. -/
theorem review_retry_gate_and_uncounted_read_failures :
    (∀ s : PState, ∀ r : ReviewResult, r.passed = false →
      (s.stage = "preprocessing_review" → s.preprocessing_review = some r →
        get_next_stage s =
          if s.retry_counts "preprocessing" < s.max_retries
          then "preprocessing" else "failed") ∧
      (s.stage = "strategy_review" → s.strategy_review = some r →
        get_next_stage s =
          if s.retry_counts "strategy" < s.max_retries
          then "strategy" else "failed") ∧
      (s.stage = "nanobanana_review" → s.nanobanana_review = some r →
        get_next_stage s =
          if s.retry_counts "nanobanana" < s.max_retries
          then "nanobanana" else "failed") ∧
      (s.stage = "listing_review" → s.listing_review = some r →
        get_next_stage s =
          if s.retry_counts "listing" < s.max_retries
          then "listing" else "failed")) ∧
    (∀ (s : PState) (e : String),
      (preprocess_review_node_step s (.error e)).retry_counts =
          s.retry_counts ∧
      reviewPassed
          (preprocess_review_node_step s (.error e)).preprocessing_review =
        false) ∧
    (∀ (s : PState) (v : ReviewResult), v.passed = false →
      (preprocess_review_node_step s (.ok v)).retry_counts "preprocessing" =
        s.retry_counts "preprocessing" + 1) ∧
    (∀ s : PState,
      (runPreprocessLoop s [.ok passVerdict]).1 = 1 ∧
      (runPreprocessLoop s [.ok passVerdict]).2.stage = "strategy") ∧
    (∀ m : Nat, 1 ≤ m → ∀ s : PState, s.max_retries = m →
      s.retry_counts "preprocessing" = 0 →
      (runPreprocessLoop s
          (.error "FileNotFoundError" ::
            (List.replicate (m - 1) (.ok failVerdict) ++
              [.ok passVerdict]))).1 = m + 1 ∧
      (runPreprocessLoop s
          (.error "FileNotFoundError" ::
            (List.replicate (m - 1) (.ok failVerdict) ++
              [.ok passVerdict]))).2.stage = "strategy") := by
  refine ⟨?_, fun s e => ⟨rfl, rfl⟩,
    fun s v hv => step_ok_fail_count s v hv, ?_, ?_⟩
  · intro s r hr
    refine ⟨?_, ?_, ?_, ?_⟩ <;> intro hs hrev
    · by_cases hc : s.retry_counts "preprocessing" < s.max_retries <;>
        simp [get_next_stage, hs, hrev, reviewPassed, hr, should_retry, hc]
    · by_cases hc : s.retry_counts "strategy" < s.max_retries <;>
        simp [get_next_stage, hs, hrev, reviewPassed, hr, should_retry, hc]
    · by_cases hc : s.retry_counts "nanobanana" < s.max_retries <;>
        simp [get_next_stage, hs, hrev, reviewPassed, hr, should_retry, hc]
    · by_cases hc : s.retry_counts "listing" < s.max_retries <;>
        simp [get_next_stage, hs, hrev, reviewPassed, hr, should_retry, hc]
  · intro s
    simp only [runPreprocessLoop]
    rw [route_of_pass s passVerdict rfl]
    exact ⟨rfl, rfl⟩
  · intro m hm s hmax hcount
    have hc0 : s.retry_counts "preprocessing" < s.max_retries := by omega
    simp only [runPreprocessLoop]
    rw [route_of_read_error_retry s "FileNotFoundError" hc0, if_pos rfl]
    have hrec := runPreprocessLoop_fails_then_pass (m - 1)
      (preprocess_review_node_step (preprocess_work_update s)
        (Except.error "FileNotFoundError"))
      (by
        show s.retry_counts "preprocessing" + (m - 1) < s.max_retries
        omega)
    refine ⟨?_, ?_⟩
    · show (runPreprocessLoop
          (preprocess_review_node_step (preprocess_work_update s)
            (Except.error "FileNotFoundError"))
          (List.replicate (m - 1) (Except.ok failVerdict) ++
            [Except.ok passVerdict])).1 + 1 = m + 1
      rw [hrec.1]
      omega
    · show (runPreprocessLoop
          (preprocess_review_node_step (preprocess_work_update s)
            (Except.error "FileNotFoundError"))
          (List.replicate (m - 1) (Except.ok failVerdict) ++
            [Except.ok passVerdict])).2.stage = "strategy"
      exact hrec.2

/-- Witness for C1's amended theorem at concrete inputs. -/
theorem review_retry_gate_and_uncounted_read_failures_witness :
    failVerdict.passed = false ∧
    get_next_stage
        (PState.mk "preprocessing_review" (some failVerdict) none none none
          (fun _ => 0) 3 false false) = "preprocessing" ∧
    (preprocess_review_node_step
        (PState.mk "preprocessing" none none none none (fun _ => 0) 2 false
          false)
        (.error "FileNotFoundError")).retry_counts "preprocessing" = 0 ∧
    (preprocess_review_node_step
        (PState.mk "preprocessing" none none none none (fun _ => 0) 2 false
          false)
        (.ok failVerdict)).retry_counts "preprocessing" = 1 ∧
    (runPreprocessLoop
        (PState.mk "pending" none none none none (fun _ => 0) 2 false false)
        (.error "FileNotFoundError" ::
          (List.replicate 1 (.ok failVerdict) ++ [.ok passVerdict]))).1 =
      3 := by
  have h := review_retry_gate_and_uncounted_read_failures
  refine ⟨rfl, ?_, ?_, ?_, ?_⟩
  · have h2 := (h.1 (PState.mk "preprocessing_review" (some failVerdict)
      none none none (fun _ => 0) 3 false false) failVerdict rfl).1 rfl rfl
    simpa using h2
  · exact congrFun (h.2.1 (PState.mk "preprocessing" none none none none
      (fun _ => 0) 2 false false) "FileNotFoundError").1 "preprocessing"
  · have h3 := h.2.2.1 (PState.mk "preprocessing" none none none none
      (fun _ => 0) 2 false false) failVerdict rfl
    simpa using h3
  · have h4 := (h.2.2.2.2 2 (by decide)
      (PState.mk "pending" none none none none (fun _ => 0) 2 false false)
      rfl rfl).1
    simpa using h4

end RetryClaims

/-- Witness for C10: the internally produced markers
`nanobanana_aggregated`, `image_gen_complete` and `image_gen_failed`
(set by `prompt_aggregator_node` and `image_gen_node`) are outside the
enumeration and route to `"failed"`. -/
theorem next_stage_default_failed_witness :
    ("nanobanana_aggregated" ∉ stageEnumeration ∧
      get_next_stage { stage := "nanobanana_aggregated" } = "failed") ∧
    ("image_gen_complete" ∉ stageEnumeration ∧
      get_next_stage { stage := "image_gen_complete" } = "failed") ∧
    ("image_gen_failed" ∉ stageEnumeration ∧
      get_next_stage { stage := "image_gen_failed" } = "failed") :=
  ⟨⟨by decide, next_stage_default_failed _ (by decide)⟩,
   ⟨by decide, next_stage_default_failed _ (by decide)⟩,
   ⟨by decide, next_stage_default_failed _ (by decide)⟩⟩

end EtsyAgent

namespace EtsyAgent

section FailOpenClaims

/-- C5: if the Layer-3 semantic-judgment call itself raises, the review
returns a verdict with `passed = true` (never `false`) carrying a
non-blocking warning in `feedback`; Layers 1–2 remain fail-closed: a failing
schema or rules validator result is returned unchanged as the (failing)
layered verdict. -/
theorem layer3_fail_open_layers12_fail_closed :
    (∀ (skill e : String), skill ≠ "" →
      run_semantic_review skill (.error e) =
        { passed := true, level := .SEMANTIC, errors := [],
          feedback := some ("L3 review skipped due to error: " ++ e) }) ∧
    (∀ (skill e : String),
      (run_semantic_review skill (.error e)).passed = true) ∧
    (∀ (α : Type) (sv rv : α → ReviewResult) (d : α),
      ((sv d).passed = false → run_layered_review sv rv d = sv d) ∧
      ((sv d).passed = true → (rv d).passed = false →
        run_layered_review sv rv d = rv d)) := by
  refine ⟨?_, ?_, ?_⟩
  · intro skill e hskill
    simp [run_semantic_review, hskill]
  · intro skill e
    by_cases h : skill = "" <;> simp [run_semantic_review, h]
  · intro α sv rv d
    constructor
    · intro h; simp [run_layered_review, h]
    · intro h1 h2; simp [run_layered_review, h1, h2]

/-- Witness for C5 at concrete inputs. -/
theorem layer3_fail_open_layers12_fail_closed_witness :
    ("etsy-batch-preprocessing" ≠ (("" : String)) ∧
      run_semantic_review "etsy-batch-preprocessing" (.error "API timeout") =
        { passed := true, level := .SEMANTIC, errors := [],
          feedback :=
            some ("L3 review skipped due to error: " ++ "API timeout") }) ∧
    (((fun (_ : Unit) => failVerdict) ()).passed = false ∧
      run_layered_review (fun (_ : Unit) => failVerdict)
        (fun _ => passVerdict) () = failVerdict) := by
  refine ⟨⟨?_, ?_⟩, ⟨rfl, ?_⟩⟩
  · decide
  · exact layer3_fail_open_layers12_fail_closed.1 "etsy-batch-preprocessing"
      "API timeout" (by decide)
  · exact (layer3_fail_open_layers12_fail_closed.2.2 Unit
      (fun _ => failVerdict) (fun _ => passVerdict) ()).1 rfl

end FailOpenClaims

end EtsyAgent

namespace EtsyAgent

section AggregatorClaims

/-- Helper: erasing the index of the loop body's output forgets exactly the
enumeration position. -/
lemma eraseIndex_promptObjOf (ctx : AggCtx) (imgs : List String) (i : Nat)
    (r : PromptResult) :
    PromptObj.eraseIndex (promptObjOf ctx imgs i r) =
      promptObjOf ctx imgs 0 r := rfl

/-- Helper: the index-erased prompts array is a plain map over the results,
independent of the enumeration start. -/
lemma buildPromptsArray_map_eraseIndex (ctx : AggCtx) (imgs : List String) :
    ∀ (i : Nat) (l : List PromptResult),
      (buildPromptsArray ctx imgs i l).map PromptObj.eraseIndex =
        l.map (fun r => promptObjOf ctx imgs 0 r) := by
  intro i l
  induction l generalizing i with
  | nil => rfl
  | cons r rs ih =>
    simp [buildPromptsArray, eraseIndex_promptObjOf, ih]

/-- Helper: the prompts array has one entry per task result. -/
lemma buildPromptsArray_length (ctx : AggCtx) (imgs : List String) :
    ∀ (i : Nat) (l : List PromptResult),
      (buildPromptsArray ctx imgs i l).length = l.length := by
  intro i l
  induction l generalizing i with
  | nil => rfl
  | cons r rs ih => simp [buildPromptsArray, ih]

/-- C2 (counterexample): permuting two task results does **not** give a
content-equal artifact even up to list order: the 1-based `index` stamped
into each prompt object follows the position in the list, so the two
prompt lists are not permutations of each other. -/
theorem aggregator_permutation_counterexample :
    ([heroResult, macroResult] : List PromptResult).Perm
      [macroResult, heroResult] ∧
    ¬ ((prompt_aggregator ctxEx [heroResult, macroResult]).written.prompts.Perm
        (prompt_aggregator ctxEx [macroResult, heroResult]).written.prompts) ∧
    (prompt_aggregator ctxEx [heroResult, macroResult]).written ≠
      (prompt_aggregator ctxEx [macroResult, heroResult]).written := by
  refine ⟨List.Perm.swap _ _ _, ?_, by decide⟩
  intro h
  have hmem : (promptObjOf ctxEx [] 1 heroResult) ∈
      (prompt_aggregator ctxEx [macroResult, heroResult]).written.prompts :=
    h.mem_iff.mp (by exact List.mem_cons_self _ _)
  revert hmem
  decide

/-- C2 (amended): permuting the task results permutes the persisted prompt
objects *up to the positional `index` field*, and leaves the success flag,
the total cost and every other artifact field unchanged; the `index` field
itself is positional, so the raw artifacts differ. -/
theorem aggregator_perm_invariant_up_to_index :
    ∀ (ctx : AggCtx) (l1 l2 : List PromptResult), l1.Perm l2 →
      ((prompt_aggregator ctx l1).written.prompts.map
          PromptObj.eraseIndex).Perm
        ((prompt_aggregator ctx l2).written.prompts.map
          PromptObj.eraseIndex) ∧
      (prompt_aggregator ctx l1).nanobanana_success =
        (prompt_aggregator ctx l2).nanobanana_success ∧
      (prompt_aggregator ctx l1).total_cost =
        (prompt_aggregator ctx l2).total_cost ∧
      (prompt_aggregator ctx l1).written.product_id =
        (prompt_aggregator ctx l2).written.product_id ∧
      (prompt_aggregator ctx l1).written.category =
        (prompt_aggregator ctx l2).written.category ∧
      (prompt_aggregator ctx l1).written.style =
        (prompt_aggregator ctx l2).written.style ∧
      (prompt_aggregator ctx l1).written.materials =
        (prompt_aggregator ctx l2).written.materials := by
  intro ctx l1 l2 h
  refine ⟨?_, ?_, ?_, rfl, rfl, rfl, rfl⟩
  · simp only [prompt_aggregator]
    rw [buildPromptsArray_map_eraseIndex, buildPromptsArray_map_eraseIndex]
    exact h.map _
  · have hlen := (h.filter (fun r => ¬ r.success)).length_eq
    simp only [prompt_aggregator]
    rw [hlen]
  · simp only [prompt_aggregator]
    exact (h.map (fun r => r.cost_usd)).sum_eq

/-- Witness for C2's amended theorem at a concrete permutation. -/
theorem aggregator_perm_invariant_up_to_index_witness :
    ([heroResult, macroResult] : List PromptResult).Perm
      [macroResult, heroResult] ∧
    ((prompt_aggregator ctxEx [heroResult, macroResult]).written.prompts.map
        PromptObj.eraseIndex).Perm
      ((prompt_aggregator ctxEx [macroResult, heroResult]).written.prompts.map
        PromptObj.eraseIndex) := by
  have hp : ([heroResult, macroResult] : List PromptResult).Perm
      [macroResult, heroResult] := List.Perm.swap _ _ _
  exact ⟨hp, (aggregator_perm_invariant_up_to_index ctxEx _ _ hp).1⟩

/-- C6: the aggregator's success flag is true exactly when no task result
failed, the merged artifact is persisted with one entry per task result
regardless of partial failure, and a fan-out failure routes the pipeline to
`failed`; the post-aggregation router can only go to `image_gen`,
`listing_review` or `failed` — there is no retry edge at the fan-out
layer. -/
theorem aggregator_success_flag_and_failed_routing :
    (∀ (ctx : AggCtx) (rs : List PromptResult),
      ((prompt_aggregator ctx rs).nanobanana_success = true ↔
        ∀ r ∈ rs, r.success = true) ∧
      (prompt_aggregator ctx rs).written.prompts.length = rs.length ∧
      (prompt_aggregator ctx rs).written_file =
        ctx.product_id ++ "_NanoBanana_Prompts.json" ∧
      (prompt_aggregator ctx rs).stage = "nanobanana_aggregated") ∧
    (∀ s : PState, s.nanobanana_success = false →
      route_after_aggregator s = "failed") ∧
    (∀ s : PState,
      route_after_aggregator s = "image_gen" ∨
      route_after_aggregator s = "listing_review" ∨
      route_after_aggregator s = "failed") := by
  refine ⟨?_, ?_, ?_⟩
  · intro ctx rs
    refine ⟨?_, buildPromptsArray_length ctx _ 1 rs, rfl, rfl⟩
    simp [prompt_aggregator, List.length_eq_zero, List.filter_eq_nil_iff]
  · intro s h
    simp [route_after_aggregator, h]
  · intro s
    by_cases h1 : s.nanobanana_success <;> by_cases h2 : s.generate_images <;>
      simp [route_after_aggregator, h1, h2]

/-- Witness for C6 at concrete inputs: one failed task makes the flag
false, the artifact still holds both entries, and the router fails. -/
theorem aggregator_success_flag_and_failed_routing_witness :
    ((prompt_aggregator ctxEx [heroResult, failedResult]).nanobanana_success =
        true ↔
      ∀ r ∈ ([heroResult, failedResult] : List PromptResult),
        r.success = true) ∧
    (prompt_aggregator ctxEx
        [heroResult, failedResult]).written.prompts.length = 2 ∧
    (PState.mk "nanobanana_aggregated" none none none none
        (fun _ => 0) 3 false false).nanobanana_success = false ∧
    route_after_aggregator
      (PState.mk "nanobanana_aggregated" none none none none
        (fun _ => 0) 3 false false) = "failed" := by
  refine ⟨(aggregator_success_flag_and_failed_routing.1 ctxEx
    [heroResult, failedResult]).1, ?_, rfl,
    aggregator_success_flag_and_failed_routing.2.1 _ rfl⟩
  exact (aggregator_success_flag_and_failed_routing.1 ctxEx
    [heroResult, failedResult]).2.1

end AggregatorClaims

end EtsyAgent

namespace EtsyAgent


section LayerClaims

set_option maxRecDepth 40000 in
/-- C4 (counterexample): a listing review on a listing that passes Layers
1–2, with Layer 3 enabled and invoked, stores a verdict whose `level` is
`RULES`, not `SEMANTIC` — so the stored layer is **not** the highest layer
actually evaluated. -/
theorem review_layer_semantic_counterexample :
    (listing_review_logic exampleRulesConfig (.ok exampleListing) true
        passSemVerdict).l3_invoked = true ∧
    (listing_review_logic exampleRulesConfig (.ok exampleListing) true
        passSemVerdict).verdict.level = ReviewLevel.RULES ∧
    (listing_review_logic exampleRulesConfig (.ok exampleListing) true
        passSemVerdict).verdict.passed = true ∧
    ReviewLevel.RULES ≠ ReviewLevel.SEMANTIC := by
  refine ⟨?_, ?_, ?_, by decide⟩ <;> rfl

/-- C4 (amended): on failure the stored layer is the short-circuit stopping
point (the failing validator's own result, or the failing Layer-3 verdict
for the blocking reviews, whose level is always `SEMANTIC`); on full success
the strategy and nanobanana reviews store `SEMANTIC` when Layer 3 was active
and `RULES` otherwise, while the preprocess and listing reviews store
`RULES` even when Layer 3 ran and passed. -/
theorem review_layer_stopping_point :
    (∀ (α : Type) (sv rv : α → ReviewResult) (d : α),
      ((sv d).passed = false → run_layered_review sv rv d = sv d) ∧
      ((sv d).passed = true → (rv d).passed = false →
        run_layered_review sv rv d = rv d) ∧
      ((sv d).passed = true → (rv d).passed = true →
        run_layered_review sv rv d =
          { passed := true, level := .RULES, errors := [] })) ∧
    (∀ (skill : String) (call : Except String String),
      (run_semantic_review skill call).level = .SEMANTIC) ∧
    (∀ (α : Type) (sv rv : α → ReviewResult) (d : α) (l3res : ReviewResult),
      (sv d).passed = true → (rv d).passed = true →
      ((l3res.passed = false →
        (strategy_review_logic sv rv (.ok d) true l3res).verdict = l3res ∧
        (nanobanana_review_logic sv rv (.ok d) true l3res).verdict = l3res ∧
        (preprocess_review_logic sv rv (.ok d) true l3res).verdict = l3res) ∧
       (l3res.passed = true →
        (strategy_review_logic sv rv (.ok d) true l3res).verdict =
          { passed := true, level := .SEMANTIC, errors := [] } ∧
        (nanobanana_review_logic sv rv (.ok d) true l3res).verdict =
          { passed := true, level := .SEMANTIC, errors := [] } ∧
        (strategy_review_logic sv rv (.ok d) false l3res).verdict =
          { passed := true, level := .RULES, errors := [] } ∧
        (preprocess_review_logic sv rv (.ok d) true l3res).verdict =
          { passed := true, level := .RULES, errors := [] } ∧
        (preprocess_review_logic sv rv (.ok d) true l3res).l3_invoked =
          true))) ∧
    (∀ (cfg : RulesConfig) (d : PyV) (l3res : ReviewResult),
      (listing_review_logic cfg (.ok d) true l3res).verdict =
        run_layered_review validate_listing_schema
          (validate_listing_rules cfg) (auto_fix_tags d).1) := by
  refine ⟨?_, ?_, ?_, ?_⟩
  · intro α sv rv d
    refine ⟨?_, ?_, ?_⟩ <;> intros <;> simp [run_layered_review, *]
  · intro skill call
    unfold run_semantic_review
    by_cases h : skill = ""
    · rw [if_pos h]
    · rw [if_neg h]
      rcases call with e | r
      · rfl
      · dsimp only
        split
        · rfl
        · split
          · rfl
          · rfl
  · intro α sv rv d l3res h1 h2
    constructor
    · intro h3
      refine ⟨?_, ?_, ?_⟩ <;>
        simp [strategy_review_logic, nanobanana_review_logic,
          preprocess_review_logic, run_layered_review, h1, h2, h3]
    · intro h3
      refine ⟨?_, ?_, ?_, ?_, ?_⟩ <;>
        simp [strategy_review_logic, nanobanana_review_logic,
          preprocess_review_logic, run_layered_review, h1, h2, h3]
  · intro cfg d l3res
    rfl

/-- Witness for C4's amended theorem at concrete inputs. -/
theorem review_layer_stopping_point_witness :
    ((fun (_ : Unit) => passVerdict) ()).passed = true ∧
    failSemVerdict.passed = false ∧
    (strategy_review_logic (fun (_ : Unit) => passVerdict)
        (fun _ => passVerdict) (.ok ()) true failSemVerdict).verdict =
      failSemVerdict ∧
    (preprocess_review_logic (fun (_ : Unit) => passVerdict)
        (fun _ => passVerdict) (.ok ()) true passSemVerdict).verdict =
      { passed := true, level := .RULES, errors := [] } := by
  have h := review_layer_stopping_point
  refine ⟨rfl, rfl, ?_, ?_⟩
  · exact ((h.2.2.1 Unit (fun _ => passVerdict) (fun _ => passVerdict) ()
      failSemVerdict rfl rfl).1 rfl).1
  · exact ((h.2.2.1 Unit (fun _ => passVerdict) (fun _ => passVerdict) ()
      passSemVerdict rfl rfl).2 rfl).2.2.2.1

end LayerClaims

end EtsyAgent

namespace EtsyAgent

section GatingClaims

/-- C7: the Layer-3 call is reached exactly when Layers 1–2 both pass and
semantic review is enabled (for every review node); when it is not reached
the node's outcome does not depend on the semantic result at all; and when
it is reached with a failing semantic result, the preprocess, strategy and
nanobanana reviews adopt the failing verdict (blocking) while the listing
review's stored verdict still passes (advisory, the artifact advances). -/
theorem layer3_gating_and_blocking :
    (∀ (α : Type) (sv rv : α → ReviewResult) (d : α)
        (l3_active : Bool) (l3res : ReviewResult),
      ((preprocess_review_logic sv rv (.ok d) l3_active l3res).l3_invoked =
        ((run_layered_review sv rv d).passed && l3_active)) ∧
      ((strategy_review_logic sv rv (.ok d) l3_active l3res).l3_invoked =
        ((sv d).passed && ((rv d).passed && l3_active))) ∧
      ((nanobanana_review_logic sv rv (.ok d) l3_active l3res).l3_invoked =
        ((sv d).passed && ((rv d).passed && l3_active)))) ∧
    (∀ (α : Type) (sv rv : α → ReviewResult) (read : Except String α)
        (l3_active : Bool) (l3res l3res' : ReviewResult),
      ((preprocess_review_logic sv rv read l3_active l3res).l3_invoked =
          false →
        preprocess_review_logic sv rv read l3_active l3res =
          preprocess_review_logic sv rv read l3_active l3res') ∧
      ((strategy_review_logic sv rv read l3_active l3res).l3_invoked =
          false →
        strategy_review_logic sv rv read l3_active l3res =
          strategy_review_logic sv rv read l3_active l3res') ∧
      ((nanobanana_review_logic sv rv read l3_active l3res).l3_invoked =
          false →
        nanobanana_review_logic sv rv read l3_active l3res =
          nanobanana_review_logic sv rv read l3_active l3res')) ∧
    (∀ (α : Type) (sv rv : α → ReviewResult) (read : Except String α)
        (l3res : ReviewResult), l3res.passed = false →
      ((preprocess_review_logic sv rv read true l3res).l3_invoked = true →
        (preprocess_review_logic sv rv read true l3res).verdict = l3res) ∧
      ((strategy_review_logic sv rv read true l3res).l3_invoked = true →
        (strategy_review_logic sv rv read true l3res).verdict = l3res) ∧
      ((nanobanana_review_logic sv rv read true l3res).l3_invoked = true →
        (nanobanana_review_logic sv rv read true l3res).verdict = l3res)) ∧
    (∀ (cfg : RulesConfig) (read : Except String PyV) (l3_active : Bool)
        (l3res l3res' : ReviewResult),
      (∀ d, read = .ok d →
        (listing_review_logic cfg read l3_active l3res).l3_invoked =
          ((run_layered_review validate_listing_schema
              (validate_listing_rules cfg) (auto_fix_tags d).1).passed &&
            l3_active)) ∧
      (listing_review_logic cfg read l3_active l3res =
        listing_review_logic cfg read l3_active l3res') ∧
      ((listing_review_logic cfg read l3_active l3res).l3_invoked = true →
        (listing_review_logic cfg read l3_active l3res).verdict.passed =
          true)) := by
  refine ⟨?_, ?_, ?_, ?_⟩
  · intro α sv rv d l3_active l3res
    refine ⟨?_, ?_, ?_⟩
    · by_cases hp : (run_layered_review sv rv d).passed <;>
        by_cases hl : l3res.passed <;> by_cases ha : l3_active <;>
          simp [preprocess_review_logic, hp, hl, ha]
    · by_cases h1 : (sv d).passed <;> by_cases h2 : (rv d).passed <;>
        by_cases hl : l3res.passed <;> by_cases ha : l3_active <;>
          simp [strategy_review_logic, h1, h2, hl, ha]
    · by_cases h1 : (sv d).passed <;> by_cases h2 : (rv d).passed <;>
        by_cases hl : l3res.passed <;> by_cases ha : l3_active <;>
          simp [nanobanana_review_logic, h1, h2, hl, ha]
  · intro α sv rv read l3_active l3res l3res'
    rcases read with e | d
    · exact ⟨fun _ => rfl, fun _ => rfl, fun _ => rfl⟩
    · refine ⟨?_, ?_, ?_⟩ <;> intro h
      · by_cases hp : (run_layered_review sv rv d).passed <;>
          by_cases ha : l3_active <;> by_cases hl : l3res.passed <;>
            by_cases hl2 : l3res'.passed <;>
              simp_all [preprocess_review_logic]
      · by_cases h1 : (sv d).passed <;> by_cases h2 : (rv d).passed <;>
          by_cases ha : l3_active <;> by_cases hl : l3res.passed <;>
            by_cases hl2 : l3res'.passed <;>
              simp_all [strategy_review_logic]
      · by_cases h1 : (sv d).passed <;> by_cases h2 : (rv d).passed <;>
          by_cases ha : l3_active <;> by_cases hl : l3res.passed <;>
            by_cases hl2 : l3res'.passed <;>
              simp_all [nanobanana_review_logic]
  · intro α sv rv read l3res hl
    rcases read with e | d
    · exact ⟨fun h => by simp [preprocess_review_logic] at h,
        fun h => by simp [strategy_review_logic] at h,
        fun h => by simp [nanobanana_review_logic] at h⟩
    · refine ⟨?_, ?_, ?_⟩ <;> intro h
      · by_cases hp : (run_layered_review sv rv d).passed <;>
          simp_all [preprocess_review_logic]
      · by_cases h1 : (sv d).passed <;> by_cases h2 : (rv d).passed <;>
          simp_all [strategy_review_logic]
      · by_cases h1 : (sv d).passed <;> by_cases h2 : (rv d).passed <;>
          simp_all [nanobanana_review_logic]
  · intro cfg read l3_active l3res l3res'
    rcases read with e | d
    · refine ⟨fun d h => Except.noConfusion h, rfl, fun h => ?_⟩
      simp [listing_review_logic] at h
    · refine ⟨fun d2 h => ?_, rfl, fun h => ?_⟩
      · cases h
        rfl
      · by_cases hp : (run_layered_review validate_listing_schema
            (validate_listing_rules cfg) (auto_fix_tags d).1).passed
        · exact hp
        · simp_all [listing_review_logic]

set_option maxRecDepth 40000 in
/-- Witness for C7 at concrete inputs. -/
theorem layer3_gating_and_blocking_witness :
    failSemVerdict.passed = false ∧
    (strategy_review_logic (fun (_ : Unit) => passVerdict)
        (fun _ => passVerdict) (.ok ()) true failSemVerdict).l3_invoked =
      true ∧
    (strategy_review_logic (fun (_ : Unit) => passVerdict)
        (fun _ => passVerdict) (.ok ()) true failSemVerdict).verdict =
      failSemVerdict ∧
    (listing_review_logic exampleRulesConfig (.ok exampleListing) true
        failSemVerdict).l3_invoked = true ∧
    (listing_review_logic exampleRulesConfig (.ok exampleListing) true
        failSemVerdict).verdict.passed = true := by
  have h := layer3_gating_and_blocking
  refine ⟨rfl, rfl, ?_, rfl, ?_⟩
  · exact (h.2.2.1 Unit (fun _ => passVerdict) (fun _ => passVerdict)
      (.ok ()) failSemVerdict rfl).2.1 rfl
  · exact (h.2.2.2 exampleRulesConfig (.ok exampleListing) true
      failSemVerdict failSemVerdict).2.2 rfl

end GatingClaims

end EtsyAgent

namespace EtsyAgent

section InvariantClaims

/-- Helper: `reviewOf` satisfies the pass/empty-errors invariant. -/
lemma reviewOf_invariant (lv : ReviewLevel) (errs : List String) :
    (reviewOf lv errs).passed = true → (reviewOf lv errs).errors = [] := by
  by_cases h : errs ≠ [] <;> simp [reviewOf, h]

/-- Helper: the shape of `validate_listing_schema` (early missing-fields
return, then the shared closing pattern) satisfies the invariant. -/
lemma schema_shape_invariant (missing errs : List String) :
    ((if missing ≠ [] then
        ({ passed := false, level := .SCHEMA, errors := missing } :
          ReviewResult)
      else reviewOf .SCHEMA errs).passed = true →
     (if missing ≠ [] then
        ({ passed := false, level := .SCHEMA, errors := missing } :
          ReviewResult)
      else reviewOf .SCHEMA errs).errors = []) := by
  by_cases hm : missing ≠ [] <;> by_cases he : errs ≠ [] <;>
    simp [reviewOf, hm, he]

set_option maxHeartbeats 1000000 in
/-- C8: every `ReviewResult` produced by any review path — the semantic
review with all its branches (missing skill, PASS, FAIL, unclear response,
raised exception), the layered L1+L2 validation for arbitrary validators,
every review node's stored verdict (including the file-read failure
branches), and the embedded listing validators — satisfies the invariant:
if `passed` is true then `errors` is empty. -/
theorem passed_implies_errors_empty :
    (∀ (skill : String) (call : Except String String),
      (run_semantic_review skill call).passed = true →
      (run_semantic_review skill call).errors = []) ∧
    (∀ (α : Type) (sv rv : α → ReviewResult) (d : α),
      (run_layered_review sv rv d).passed = true →
      (run_layered_review sv rv d).errors = []) ∧
    (∀ (α : Type) (sv rv : α → ReviewResult) (read : Except String α)
        (l3_active : Bool) (l3res : ReviewResult),
      ((preprocess_review_logic sv rv read l3_active l3res).verdict.passed =
          true →
        (preprocess_review_logic sv rv read l3_active l3res).verdict.errors =
          []) ∧
      ((strategy_review_logic sv rv read l3_active l3res).verdict.passed =
          true →
        (strategy_review_logic sv rv read l3_active l3res).verdict.errors =
          []) ∧
      ((nanobanana_review_logic sv rv read l3_active l3res).verdict.passed =
          true →
        (nanobanana_review_logic sv rv read l3_active l3res).verdict.errors =
          [])) ∧
    (∀ (cfg : RulesConfig) (read : Except String PyV) (l3_active : Bool)
        (l3res : ReviewResult),
      (listing_review_logic cfg read l3_active l3res).verdict.passed = true →
      (listing_review_logic cfg read l3_active l3res).verdict.errors = []) ∧
    (∀ d : PyV, (validate_listing_schema d).passed = true →
      (validate_listing_schema d).errors = []) ∧
    (∀ (cfg : RulesConfig) (d : PyV),
      (validate_listing_rules cfg d).passed = true →
      (validate_listing_rules cfg d).errors = []) := by
  have hlay : ∀ (α : Type) (sv rv : α → ReviewResult) (d : α),
      (run_layered_review sv rv d).passed = true →
      (run_layered_review sv rv d).errors = [] := by
    intro α sv rv d h
    by_cases h1 : (sv d).passed <;> by_cases h2 : (rv d).passed <;>
      simp_all [run_layered_review]
  refine ⟨?_, hlay, ?_, ?_, ?_, ?_⟩
  · intro skill call
    unfold run_semantic_review
    by_cases h : skill = ""
    · rw [if_pos h]
      intro
      rfl
    · rw [if_neg h]
      rcases call with e | r
      · intro
        rfl
      · dsimp only
        split
        · intro
          rfl
        · split
          · intro hcontra
            simp at hcontra
          · intro
            rfl
  · intro α sv rv read l3_active l3res
    rcases read with e | d
    · refine ⟨?_, ?_, ?_⟩ <;> intro h <;>
        simp_all [preprocess_review_logic, strategy_review_logic,
          nanobanana_review_logic]
    · refine ⟨?_, ?_, ?_⟩ <;> intro h
      · by_cases hp : (run_layered_review sv rv d).passed <;>
          by_cases ha : l3_active <;> by_cases hl : l3res.passed <;>
            simp_all [preprocess_review_logic]
      · by_cases h1 : (sv d).passed <;> by_cases h2 : (rv d).passed <;>
          by_cases ha : l3_active <;> by_cases hl : l3res.passed <;>
            simp_all [strategy_review_logic]
      · by_cases h1 : (sv d).passed <;> by_cases h2 : (rv d).passed <;>
          by_cases ha : l3_active <;> by_cases hl : l3res.passed <;>
            simp_all [nanobanana_review_logic]
  · intro cfg read l3_active l3res h
    rcases read with e | d
    · simp_all [listing_review_logic]
    · have h2 : (listing_review_logic cfg (.ok d) l3_active l3res).verdict =
          run_layered_review validate_listing_schema
            (validate_listing_rules cfg) (auto_fix_tags d).1 := rfl
      rw [h2] at h ⊢
      exact hlay _ _ _ _ h
  · intro d
    exact schema_shape_invariant _ _
  · intro cfg d
    exact reviewOf_invariant .RULES _

/-- Witness for C8 at concrete inputs. -/
theorem passed_implies_errors_empty_witness :
    (run_semantic_review "etsy-batch-preprocessing"
        (.ok "SEMANTIC_REVIEW_RESULT: PASS")).passed = true ∧
    (run_semantic_review "etsy-batch-preprocessing"
        (.ok "SEMANTIC_REVIEW_RESULT: PASS")).errors = [] ∧
    (validate_listing_schema exampleListing).passed = true ∧
    (validate_listing_schema exampleListing).errors = [] := by
  have h := passed_implies_errors_empty
  refine ⟨by decide, ?_, by decide, ?_⟩
  · exact h.1 "etsy-batch-preprocessing"
      (.ok "SEMANTIC_REVIEW_RESULT: PASS") (by decide)
  · exact h.2.2.2.2.1 exampleListing (by decide)

end InvariantClaims

end EtsyAgent

namespace EtsyAgent

section TagClaims

/-- Helper: `pySplitOn` never returns the empty list. -/
lemma pySplitOn_ne_nil (p : Char → Bool) : ∀ s : PyStr, pySplitOn p s ≠ [] := by
  intro s
  induction s with
  | nil => simp [pySplitOn]
  | cons c cs ih =>
    simp only [pySplitOn]
    split
    · simp
    · rcases hq : pySplitOn p cs with _ | ⟨h1, t1⟩ <;> simp [hq]

/-- Helper: pieces of `pySplitOn` contain no separator characters. -/
lemma pySplitOn_mem_sepFree (p : Char → Bool) :
    ∀ (s : PyStr), ∀ u ∈ pySplitOn p s, ∀ c ∈ u, p c = false := by
  intro s
  induction s with
  | nil =>
    intro u hu
    simp [pySplitOn] at hu
    simp [hu]
  | cons c cs ih =>
    intro u hu
    simp only [pySplitOn] at hu
    by_cases hc : p c
    · rw [if_pos hc] at hu
      rw [List.mem_cons] at hu
      rcases hu with hu | hu
      · simp [hu]
      · exact ih u hu
    · rw [if_neg hc] at hu
      rcases hq : pySplitOn p cs with _ | ⟨h1, t1⟩
      · exact absurd hq (pySplitOn_ne_nil p cs)
      · rw [hq] at hu
        rw [List.mem_cons] at hu
        rcases hu with hu | hu
        · subst hu
          intro c2 hc2
          rw [List.mem_cons] at hc2
          rcases hc2 with hc2 | hc2
          · subst hc2
            simpa using hc
          · exact ih h1 (by rw [hq]; exact List.mem_cons_self _ _) c2 hc2
        · exact ih u (by rw [hq]; exact List.mem_cons_of_mem _ hu)

/-- Helper: characters of the pieces of `pySplitOn` come from the input. -/
lemma pySplitOn_mem_subset (p : Char → Bool) :
    ∀ (s : PyStr), ∀ u ∈ pySplitOn p s, ∀ c ∈ u, c ∈ s := by
  intro s
  induction s with
  | nil =>
    intro u hu
    simp [pySplitOn] at hu
    simp [hu]
  | cons c cs ih =>
    intro u hu
    simp only [pySplitOn] at hu
    by_cases hc : p c
    · rw [if_pos hc] at hu
      rw [List.mem_cons] at hu
      rcases hu with hu | hu
      · simp [hu]
      · intro c2 hc2
        exact List.mem_cons_of_mem _ (ih u hu c2 hc2)
    · rw [if_neg hc] at hu
      rcases hq : pySplitOn p cs with _ | ⟨h1, t1⟩
      · exact absurd hq (pySplitOn_ne_nil p cs)
      · rw [hq] at hu
        rw [List.mem_cons] at hu
        rcases hu with hu | hu
        · subst hu
          intro c2 hc2
          rw [List.mem_cons] at hc2
          rcases hc2 with hc2 | hc2
          · subst hc2
            exact List.mem_cons_self _ _
          · exact List.mem_cons_of_mem _ (ih h1
              (by rw [hq]; exact List.mem_cons_self _ _) c2 hc2)
        · intro c2 hc2
          exact List.mem_cons_of_mem _
            (ih u (by rw [hq]; exact List.mem_cons_of_mem _ hu) c2 hc2)

/-- Helper: characters of `pyStrip s` come from `s`. -/
lemma pyStrip_subset (s : PyStr) : ∀ c ∈ pyStrip s, c ∈ s := by
  intro c hc
  unfold pyStrip at hc
  rw [List.mem_reverse] at hc
  have h1 := (List.dropWhile_sublist (l := (s.dropWhile pyIsSpace).reverse)
    (p := pyIsSpace)).subset hc
  rw [List.mem_reverse] at h1
  exact (List.dropWhile_sublist (l := s) (p := pyIsSpace)).subset h1

/-- Helper: stripping does not lengthen a string. -/
lemma pyStrip_length_le (s : PyStr) : (pyStrip s).length ≤ s.length := by
  unfold pyStrip
  calc ((s.dropWhile pyIsSpace).reverse.dropWhile pyIsSpace).reverse.length
      = ((s.dropWhile pyIsSpace).reverse.dropWhile pyIsSpace).length := by
        rw [List.length_reverse]
    _ ≤ (s.dropWhile pyIsSpace).reverse.length :=
        (List.dropWhile_sublist _).length_le
    _ = (s.dropWhile pyIsSpace).length := by rw [List.length_reverse]
    _ ≤ s.length := (List.dropWhile_sublist _).length_le

/-- Helper: stripping eats a leading whitespace character. -/
lemma pyStrip_cons_space (c : Char) (s : PyStr) (h : pyIsSpace c = true) :
    pyStrip (c :: s) = pyStrip s := by
  unfold pyStrip
  rw [List.dropWhile_cons_of_pos h]

/-- Helper: splitting a separator-free string yields one piece. -/
lemma pySplitOn_sepFree (p : Char → Bool) :
    ∀ (s : PyStr), (∀ c ∈ s, p c = false) → pySplitOn p s = [s] := by
  intro s
  induction s with
  | nil => intro; rfl
  | cons c cs ih =>
    intro h
    have hc : p c = false := h c (List.mem_cons_self _ _)
    have hrec := ih (fun c2 hc2 => h c2 (List.mem_cons_of_mem _ hc2))
    simp only [pySplitOn, hc]
    simp [hrec]

/-- Helper: a separator-free prefix merges into the first piece. -/
lemma pySplitOn_append (p : Char → Bool) :
    ∀ (a : PyStr) (rest : PyStr) (h1 : PyStr) (t1 : List PyStr),
      (∀ c ∈ a, p c = false) → pySplitOn p rest = h1 :: t1 →
      pySplitOn p (a ++ rest) = (a ++ h1) :: t1 := by
  intro a
  induction a with
  | nil =>
    intro rest h1 t1 _ hr
    simpa using hr
  | cons c a' ih =>
    intro rest h1 t1 ha hr
    have hc : p c = false := ha c (List.mem_cons_self _ _)
    have hrec := ih rest h1 t1
      (fun c2 hc2 => ha c2 (List.mem_cons_of_mem _ hc2)) hr
    simp only [List.cons_append, pySplitOn, hc]
    simp [hrec]

/-- Helper: a separator character opens a new empty piece. -/
lemma pySplitOn_sep_cons (p : Char → Bool) (c : Char) (s : PyStr)
    (h : p c = true) : pySplitOn p (c :: s) = [] :: pySplitOn p s := by
  simp [pySplitOn, h]

/-- Helper: splitting `", ".join(l)` on commas recovers the pieces, the
later ones carrying the joining space, provided no piece contains a
comma. -/
lemma pySplitOn_joinTags :
    ∀ (l : List PyStr) (x : PyStr), (∀ c ∈ x, ¬ c = ',') →
      (∀ y ∈ l, ∀ c ∈ y, ¬ c = ',') →
      pySplitOn (fun c => c = ',') (joinTags (x :: l)) =
        x :: l.map (fun y => ' ' :: y) := by
  intro l
  induction l with
  | nil =>
    intro x hx _
    show pySplitOn (fun c => c = ',') x = [x]
    exact pySplitOn_sepFree _ x (fun c hc => by simp [hx c hc])
  | cons y l ih =>
    intro x hx hl
    have hy : ∀ c ∈ y, ¬ c = ',' := hl y (List.mem_cons_self _ _)
    have hl' : ∀ z ∈ l, ∀ c ∈ z, ¬ c = ',' :=
      fun z hz => hl z (List.mem_cons_of_mem _ hz)
    have hrec := ih y hy hl'
    have hstep : joinTags (x :: y :: l) =
        x ++ (',' :: ' ' :: joinTags (y :: l)) := by
      simp [joinTags, joinWith, List.append_assoc]
    rw [hstep]
    have hsp : pySplitOn (fun c => c = ',') (' ' :: joinTags (y :: l)) =
        (' ' :: y) :: l.map (fun z => ' ' :: z) := by
      have := pySplitOn_append (fun c => c = ',') [' ']
        (joinTags (y :: l)) y (l.map (fun z => ' ' :: z))
        (by intro c hc; simp at hc; simp [hc]) hrec
      simpa using this
    have hcomma : pySplitOn (fun c => c = ',')
        (',' :: ' ' :: joinTags (y :: l)) =
        [] :: (' ' :: y) :: l.map (fun z => ' ' :: z) := by
      rw [pySplitOn_sep_cons _ _ _ (by simp), hsp]
    have := pySplitOn_append (fun c => c = ',') x
      (',' :: ' ' :: joinTags (y :: l)) []
      ((' ' :: y) :: l.map (fun z => ' ' :: z))
      (by intro c hc; simp [hx c hc]) hcomma
    simpa using this

/-- Helper: every tag parsed back out of `", ".join(l)` is at most as long
as some piece of `l`. -/
lemma parse_joinTags_bound (l : List PyStr) (hne : l ≠ [])
    (hcf : ∀ y ∈ l, ∀ c ∈ y, ¬ c = ',')
    (hlen : ∀ y ∈ l, y.length ≤ ETSY_TAG_MAX_CHARS) :
    ∀ t ∈ parseTagList (joinTags l), t.length ≤ ETSY_TAG_MAX_CHARS := by
  rcases l with _ | ⟨x, l⟩
  · exact absurd rfl hne
  · intro t ht
    unfold parseTagList at ht
    rw [pySplitOn_joinTags l x (hcf x (List.mem_cons_self _ _))
      (fun y hy => hcf y (List.mem_cons_of_mem _ hy))] at ht
    have ht2 := List.mem_of_mem_filter ht
    simp only [List.map_cons, List.map_map, List.mem_cons] at ht2
    rcases ht2 with ht2 | ht2
    · subst ht2
      exact le_trans (pyStrip_length_le x) (hlen x (List.mem_cons_self _ _))
    · rw [List.mem_map] at ht2
      obtain ⟨y, hy, hyt⟩ := ht2
      have : t = pyStrip y := by
        rw [← hyt]
        show pyStrip (' ' :: y) = pyStrip y
        exact pyStrip_cons_space ' ' y (by simp [pyIsSpace])
      rw [this]
      exact le_trans (pyStrip_length_le y)
        (hlen y (List.mem_cons_of_mem _ hy))

/-- Unfolding equation for one step of the truncation loop. -/
lemma truncateWords_cons (acc w : PyStr) (ws : List PyStr) :
    truncateWords acc (w :: ws) =
      (if (if acc = [] then w
            else pyStrip (acc ++ ' ' :: w)).length ≤ ETSY_TAG_MAX_CHARS
       then truncateWords
            (if acc = [] then w else pyStrip (acc ++ ' ' :: w)) ws
       else acc) := rfl

/-- Unfolding equation for `fixTag`. -/
lemma fixTag_eq (t : PyStr) :
    fixTag t =
      (if truncateWords [] (pyWords t) = [] then t.take ETSY_TAG_MAX_CHARS
       else truncateWords [] (pyWords t)) := rfl

/-- Helper: the truncation loop never exceeds the limit. -/
lemma truncateWords_le :
    ∀ (ws : List PyStr) (acc : PyStr), acc.length ≤ ETSY_TAG_MAX_CHARS →
      (truncateWords acc ws).length ≤ ETSY_TAG_MAX_CHARS := by
  intro ws
  induction ws with
  | nil => intro acc h; exact h
  | cons w ws ih =>
    intro acc h
    rw [truncateWords_cons]
    by_cases hc : (if acc = [] then w
        else pyStrip (acc ++ ' ' :: w)).length ≤ ETSY_TAG_MAX_CHARS
    · rw [if_pos hc]
      exact ih _ hc
    · rw [if_neg hc]
      exact h

/-- Helper: a fixed tag is within the limit. -/
lemma fixTag_le (t : PyStr) : (fixTag t).length ≤ ETSY_TAG_MAX_CHARS := by
  rw [fixTag_eq]
  by_cases hc : truncateWords [] (pyWords t) = []
  · rw [if_pos hc, List.length_take]
    exact min_le_left _ _
  · rw [if_neg hc]
    exact truncateWords_le (pyWords t) [] (by simp)

/-- Helper: every word of `t` draws its characters from `t`. -/
lemma pyWords_chars (t : PyStr) : ∀ w ∈ pyWords t, ∀ c ∈ w, c ∈ t := by
  intro w hw
  unfold pyWords at hw
  exact pySplitOn_mem_subset pyIsSpace t w (List.mem_of_mem_filter hw)

/-- Helper: the truncation loop only uses the accumulator's characters, the
words' characters and joining spaces. -/
lemma truncateWords_chars (t : PyStr) :
    ∀ (ws : List PyStr) (acc : PyStr),
      (∀ c ∈ acc, c = ' ' ∨ c ∈ t) → (∀ w ∈ ws, ∀ c ∈ w, c ∈ t) →
      ∀ c ∈ truncateWords acc ws, c = ' ' ∨ c ∈ t := by
  intro ws
  induction ws with
  | nil => intro acc ha _; exact ha
  | cons w ws ih =>
    intro acc ha hws
    have hw : ∀ c ∈ w, c ∈ t := hws w (List.mem_cons_self _ _)
    have hws' : ∀ w2 ∈ ws, ∀ c ∈ w2, c ∈ t :=
      fun w2 hw2 => hws w2 (List.mem_cons_of_mem _ hw2)
    have hcand : ∀ c ∈ (if acc = [] then w
        else pyStrip (acc ++ ' ' :: w)), c = ' ' ∨ c ∈ t := by
      split
      · intro c hc; exact Or.inr (hw c hc)
      · intro c hc
        have hc2 := pyStrip_subset _ c hc
        rw [List.mem_append] at hc2
        rcases hc2 with hc2 | hc2
        · exact ha c hc2
        · rw [List.mem_cons] at hc2
          rcases hc2 with hc2 | hc2
          · exact Or.inl hc2
          · exact Or.inr (hw c hc2)
    rw [truncateWords_cons]
    by_cases hc : (if acc = [] then w
        else pyStrip (acc ++ ' ' :: w)).length ≤ ETSY_TAG_MAX_CHARS
    · rw [if_pos hc]
      exact ih _ hcand hws'
    · rw [if_neg hc]
      exact ha

/-- Helper: fixing a comma-free tag yields a comma-free tag. -/
lemma fixTag_commaFree (t : PyStr) (h : ∀ c ∈ t, ¬ c = ',') :
    ∀ c ∈ fixTag t, ¬ c = ',' := by
  intro c hc
  rw [fixTag_eq] at hc
  by_cases hz : truncateWords [] (pyWords t) = []
  · rw [if_pos hz] at hc
    exact h c (List.take_subset _ _ hc)
  · rw [if_neg hz] at hc
    rcases truncateWords_chars t (pyWords t) [] (by simp)
      (pyWords_chars t) c hc with h2 | h2
    · subst h2
      simp
    · exact h c h2

/-- Helper: a lookup fold over entries without the key returns its seed. -/
lemma foldl_lookup_no_match (k : String) :
    ∀ (l : List (String × PyV)) (init : Option PyV),
      l.any (fun e => e.1 = k) = false →
      l.foldl (fun acc e => if e.1 = k then some e.2 else acc) init = init := by
  intro l
  induction l with
  | nil => intro init _; rfl
  | cons e es ih =>
    intro init h
    rw [List.any_cons, Bool.or_eq_false_iff] at h
    have he : ¬ e.1 = k := by simpa using h.1
    rw [List.foldl_cons, if_neg he]
    exact ih init h.2

/-- Helper: the rewrite map of `PyV.set` preserves the keys. -/
lemma any_keys_mapped (k : String) (v : PyV) (l : List (String × PyV)) :
    (l.map (fun e => if e.1 = k then (e.1, v) else e)).any
        (fun e => e.1 = k) =
      l.any (fun e => e.1 = k) := by
  induction l with
  | nil => rfl
  | cons e es ih => by_cases he : e.1 = k <;> simp [he, ih]

/-- Helper: looking up the key after the rewrite map finds the new value. -/
lemma foldl_lookup_mapped (k : String) (v : PyV) :
    ∀ (l : List (String × PyV)) (init : Option PyV),
      l.any (fun e => e.1 = k) = true →
      (l.map (fun e => if e.1 = k then (e.1, v) else e)).foldl
        (fun acc e => if e.1 = k then some e.2 else acc) init = some v := by
  intro l
  induction l with
  | nil => intro init h; simp at h
  | cons e es ih =>
    intro init h
    by_cases he : e.1 = k
    · simp only [List.map_cons, if_pos he, List.foldl_cons]
      by_cases hes : es.any (fun e => e.1 = k) = true
      · exact ih _ hes
      · have hes' : (es.map (fun e => if e.1 = k then (e.1, v) else e)).any
            (fun e => e.1 = k) = false := by
          rw [any_keys_mapped]
          simp only [Bool.not_eq_true] at hes
          exact hes
        exact foldl_lookup_no_match k _ (some v) hes'
    · have hes : es.any (fun e => e.1 = k) = true := by
        rw [List.any_cons] at h
        simpa [he] using h
      simp only [List.map_cons, if_neg he, List.foldl_cons]
      exact ih _ hes

/-- Helper: `PyV.set` on a present key makes `PyV.get` return the new
value. -/
lemma PyV.get_set_same (d : PyV) (k : String) (v v0 : PyV)
    (h : d.get k = some v0) : (d.set k v).get k = some v := by
  have hget : ∀ l : List (String × PyV), PyV.get (.dict l) k =
      l.foldl (fun acc e => if e.1 = k then some e.2 else acc) Option.none :=
    fun l => rfl
  cases d with
  | dict entries =>
    have hset : PyV.set (.dict entries) k v =
        if entries.any (fun e => e.1 = k) then
          .dict (entries.map (fun e => if e.1 = k then (e.1, v) else e))
        else .dict (entries ++ [(k, v)]) := rfl
    by_cases hany : entries.any (fun e => e.1 = k) = true
    · rw [hset, if_pos hany, hget]
      exact foldl_lookup_mapped k v entries Option.none hany
    · exfalso
      simp only [Bool.not_eq_true] at hany
      have h0 := foldl_lookup_no_match k entries Option.none hany
      rw [hget] at h
      rw [h0] at h
      exact Option.noConfusion h
  | str s => exact Option.noConfusion h
  | num n => exact Option.noConfusion h
  | bool b => exact Option.noConfusion h
  | list l => exact Option.noConfusion h
  | none => exact Option.noConfusion h

/-- Helper: parsed tags contain no commas. -/
lemma parseTagList_commaFree (s : PyStr) :
    ∀ t ∈ parseTagList s, ∀ c ∈ t, ¬ c = ',' := by
  intro t ht c hc
  unfold parseTagList at ht
  have ht2 := List.mem_of_mem_filter ht
  rw [List.mem_map] at ht2
  obtain ⟨u, hu, rfl⟩ := ht2
  have hc2 := pyStrip_subset u c hc
  have := pySplitOn_mem_sepFree (fun c => c = ',') s u hu c hc2
  simpa using this

/-- Helper: the per-tag fix used in the `_auto_fix_tags` loop. -/
lemma fixed_tag_ok (s : PyStr) (t : PyStr) (ht : t ∈ parseTagList s) :
    ((if ETSY_TAG_MAX_CHARS < t.length then fixTag t else t).length ≤
        ETSY_TAG_MAX_CHARS) ∧
      (∀ c ∈ (if ETSY_TAG_MAX_CHARS < t.length then fixTag t else t),
        ¬ c = ',') := by
  by_cases h20 : ETSY_TAG_MAX_CHARS < t.length
  · rw [if_pos h20]
    exact ⟨fixTag_le t, fixTag_commaFree t (parseTagList_commaFree s t ht)⟩
  · rw [if_neg h20]
    exact ⟨le_of_not_lt h20, parseTagList_commaFree s t ht⟩

/-- Helper: core of C9(a) — after the auto-fix, the stored tags string
parses into tags that are all within the 20-character limit. -/
lemma auto_fix_tags_bounded (d : PyV) (s : PyStr)
    (h : d.get "tags" = some (.str s)) :
    ∃ s2 : PyStr, (auto_fix_tags d).1.get "tags" = some (.str s2) ∧
      ∀ t ∈ parseTagList s2, t.length ≤ ETSY_TAG_MAX_CHARS := by
  unfold auto_fix_tags
  rw [h]
  dsimp only
  by_cases hs : s = []
  · rw [if_pos hs]
    refine ⟨s, h, ?_⟩
    subst hs
    intro t ht
    simp [parseTagList, pySplitOn, pyStrip] at ht
  · rw [if_neg hs]
    by_cases hfix :
        (parseTagList s).any (fun t => ETSY_TAG_MAX_CHARS < t.length) = true
    · simp only [hfix, if_pos]
      refine ⟨joinTags ((parseTagList s).map
        (fun t => if ETSY_TAG_MAX_CHARS < t.length then fixTag t else t)),
        PyV.get_set_same d "tags" _ _ h, ?_⟩
      apply parse_joinTags_bound
      · rw [List.any_eq_true] at hfix
        obtain ⟨t, ht, _⟩ := hfix
        intro hnil
        rw [List.map_eq_nil_iff] at hnil
        rw [hnil] at ht
        exact List.not_mem_nil t ht
      · intro y hy
        rw [List.mem_map] at hy
        obtain ⟨t, ht, rfl⟩ := hy
        exact (fixed_tag_ok s t ht).2
      · intro y hy
        rw [List.mem_map] at hy
        obtain ⟨t, ht, rfl⟩ := hy
        exact (fixed_tag_ok s t ht).1
    · simp only [hfix]
      rw [if_neg (by simp)]
      refine ⟨s, h, ?_⟩
      intro t ht
      simp only [Bool.not_eq_true, List.any_eq_false] at hfix
      have := hfix t ht
      simp only [decide_eq_false_iff_not, not_lt] at this
      exact this

/-- Helper: C9(b) — a listing whose tags are all within the limit is left
unchanged. -/
lemma auto_fix_tags_unchanged (d : PyV) (s : PyStr)
    (h : d.get "tags" = some (.str s))
    (hall : ∀ t ∈ parseTagList s, t.length ≤ ETSY_TAG_MAX_CHARS) :
    auto_fix_tags d = (d, false) := by
  unfold auto_fix_tags
  rw [h]
  dsimp only
  by_cases hs : s = []
  · rw [if_pos hs]
  · rw [if_neg hs]
    have hfix :
        (parseTagList s).any (fun t => ETSY_TAG_MAX_CHARS < t.length) =
          false := by
      rw [List.any_eq_false]
      intro t ht
      simpa using not_lt_of_le (hall t ht)
    simp only [hfix]
    rw [if_neg (by simp)]

/-- Helper: words of a string are nonempty and whitespace-free. -/
lemma pyWords_good (s : PyStr) :
    ∀ w ∈ pyWords s, w ≠ [] ∧ ∀ c ∈ w, pyIsSpace c = false := by
  intro w hw
  unfold pyWords at hw
  rw [List.mem_filter] at hw
  refine ⟨by simpa using hw.2, ?_⟩
  exact pySplitOn_mem_sepFree pyIsSpace s w hw.1

/-- Helper: `" ".join` distributes over appending one more word. -/
lemma joinWords_append_single (w : PyStr) :
    ∀ (dl : List PyStr) (x : PyStr),
      joinWords ((x :: dl) ++ [w]) = joinWords (x :: dl) ++ ' ' :: w := by
  intro dl
  induction dl with
  | nil =>
    intro x
    simp [joinWords, joinWith, List.append_assoc]
  | cons y dl ih =>
    intro x
    have h1 : joinWords (x :: y :: dl) = x ++ ' ' :: joinWords (y :: dl) := by
      simp [joinWords, joinWith, List.append_assoc]
    have h2 : joinWords ((x :: y :: dl) ++ [w]) =
        x ++ ' ' :: joinWords ((y :: dl) ++ [w]) := by
      simp [joinWords, joinWith, List.append_assoc]
    rw [h2, ih y, h1]
    simp [List.append_assoc]

/-- Helper: the join of a nonempty word list starts with the first word's
first character. -/
lemma joinWords_cons_head (c0 : Char) (z : PyStr) (dl : List PyStr) :
    ∃ r, joinWords ((c0 :: z) :: dl) = c0 :: r := by
  cases dl with
  | nil => exact ⟨z, rfl⟩
  | cons y dl =>
    exact ⟨z ++ ' ' :: joinWords (y :: dl),
      by simp [joinWords, joinWith, List.append_assoc]⟩

/-- Helper: stripping is a no-op on `acc ++ " " ++ word` when `acc` starts
with a non-space character and the word is a nonempty space-free word. -/
lemma pyStrip_append_word (A w : PyStr) (c0 : Char) (z : PyStr)
    (hA : A = c0 :: z) (hc0 : pyIsSpace c0 = false) (hw : w ≠ [])
    (hwc : ∀ c ∈ w, pyIsSpace c = false) :
    pyStrip (A ++ ' ' :: w) = A ++ ' ' :: w := by
  subst hA
  unfold pyStrip
  have h1 : ((c0 :: z) ++ ' ' :: w).dropWhile pyIsSpace =
      (c0 :: z) ++ ' ' :: w := by
    rw [List.cons_append, List.dropWhile_cons_of_neg (by simp [hc0])]
  rw [h1]
  rcases hrev : w.reverse with _ | ⟨cE, zE⟩
  · exact absurd (List.reverse_eq_nil_iff.mp hrev) hw
  · have hcE : pyIsSpace cE = false := hwc cE
      (by rw [← List.mem_reverse, hrev]; exact List.mem_cons_self _ _)
    obtain ⟨tail, h2⟩ : ∃ tail,
        ((c0 :: z) ++ ' ' :: w).reverse = cE :: tail := by
      refine ⟨zE ++ ([' '] ++ (c0 :: z).reverse), ?_⟩
      rw [List.reverse_append, List.reverse_cons, hrev]
      simp [List.append_assoc]
    rw [h2, List.dropWhile_cons_of_neg (by simp [hcE]), ← h2,
      List.reverse_reverse]

/-- Helper: starting from a joined nonempty word list, the truncation loop
always stops at a word boundary: the result is the join of the start list
extended by some prefix of the remaining words. -/
lemma truncateWords_prefix :
    ∀ (ws : List PyStr) (dl : List PyStr) (x : PyStr),
      (∀ y ∈ x :: dl, y ≠ [] ∧ ∀ c ∈ y, pyIsSpace c = false) →
      (∀ w ∈ ws, w ≠ [] ∧ ∀ c ∈ w, pyIsSpace c = false) →
      ∃ k, truncateWords (joinWords (x :: dl)) ws =
        joinWords ((x :: dl) ++ ws.take k) := by
  intro ws
  induction ws with
  | nil =>
    intro dl x _ _
    exact ⟨0, by simp [truncateWords]⟩
  | cons w ws ih =>
    intro dl x hdl hws
    obtain ⟨hxne, hxc⟩ := hdl x (List.mem_cons_self _ _)
    rcases hx : x with _ | ⟨cx, zx⟩
    · exact absurd hx hxne
    · obtain ⟨r, hr⟩ := joinWords_cons_head cx zx dl
      have haccne : joinWords ((cx :: zx) :: dl) ≠ [] := by
        rw [hr]
        exact List.cons_ne_nil _ _
      obtain ⟨hwne, hwc⟩ := hws w (List.mem_cons_self _ _)
      have hcand : (if joinWords ((cx :: zx) :: dl) = [] then w
          else pyStrip (joinWords ((cx :: zx) :: dl) ++ ' ' :: w)) =
          joinWords (((cx :: zx) :: dl) ++ [w]) := by
        rw [if_neg haccne,
          pyStrip_append_word _ w cx r hr
            (by subst hx; exact hxc cx (List.mem_cons_self _ _)) hwne hwc,
          joinWords_append_single]
      rw [truncateWords_cons, hcand]
      by_cases hlen :
          (joinWords (((cx :: zx) :: dl) ++ [w])).length ≤ ETSY_TAG_MAX_CHARS
      · rw [if_pos hlen]
        have hgood2 : ∀ y ∈ (cx :: zx) :: (dl ++ [w]),
            y ≠ [] ∧ ∀ c ∈ y, pyIsSpace c = false := by
          intro y hy
          rw [List.mem_cons] at hy
          rcases hy with hy | hy
          · subst hy
            exact hdl _ (by rw [hx]; exact List.mem_cons_self _ _)
          · rw [List.mem_append] at hy
            rcases hy with hy | hy
            · exact hdl y (by rw [hx]; exact List.mem_cons_of_mem _ hy)
            · rw [List.mem_singleton] at hy
              subst hy
              exact ⟨hwne, hwc⟩
        obtain ⟨k, hk⟩ := ih (dl ++ [w]) (cx :: zx) hgood2
          (fun w2 hw2 => hws w2 (List.mem_cons_of_mem _ hw2))
        refine ⟨k + 1, ?_⟩
        have hshape : ((cx :: zx) :: dl) ++ [w] = (cx :: zx) :: (dl ++ [w]) :=
          by simp
        rw [hshape, hk]
        congr 1
        simp [List.take_succ_cons, List.append_assoc]
      · rw [if_neg hlen]
        exact ⟨0, by simp⟩

/-- Helper: C9(c), boundary case — when an over-long tag's first word fits,
the fixed tag is the join of a nonempty prefix of its words. -/
lemma fixTag_word_boundary (t : PyStr) (w : PyStr) (ws : List PyStr)
    (hw : pyWords t = w :: ws) (hle : w.length ≤ ETSY_TAG_MAX_CHARS) :
    ∃ k, 1 ≤ k ∧ fixTag t = joinWords ((pyWords t).take k) := by
  have hgood := pyWords_good t
  rw [hw] at hgood
  obtain ⟨hwne, hwc⟩ := hgood w (List.mem_cons_self _ _)
  have hstep : truncateWords [] (w :: ws) = truncateWords w ws := by
    rw [truncateWords_cons, if_pos rfl]
    rw [if_pos (by simpa using hle)]
  have hjw : joinWords [w] = w := rfl
  obtain ⟨k, hk⟩ := truncateWords_prefix ws [] w
    (by intro y hy; rw [List.mem_singleton] at hy; subst hy
        exact ⟨hwne, hwc⟩)
    (fun w2 hw2 => hgood w2 (List.mem_cons_of_mem _ hw2))
  rw [hjw] at hk
  rcases hx : w with _ | ⟨cw, zw⟩
  · exact absurd hx hwne
  · subst hx
    obtain ⟨r, hr⟩ := joinWords_cons_head cw zw (ws.take k)
    have hne : truncateWords [] ((cw :: zw) :: ws) ≠ [] := by
      rw [hstep, hk]
      simp [hr]
    refine ⟨k + 1, by omega, ?_⟩
    rw [fixTag_eq, hw, if_neg hne, hstep, hk, List.take_succ_cons]
    rfl

/-- Helper: C9(c), fallback case — when the first word itself exceeds the
limit, the fixed tag is a raw 20-character cut. -/
lemma fixTag_no_boundary (t : PyStr) (w : PyStr) (ws : List PyStr)
    (hw : pyWords t = w :: ws) (hgt : ETSY_TAG_MAX_CHARS < w.length) :
    fixTag t = t.take ETSY_TAG_MAX_CHARS := by
  have hstep : truncateWords [] (w :: ws) = [] := by
    rw [truncateWords_cons, if_pos rfl]
    rw [if_neg (by simpa using not_le_of_lt hgt)]
  rw [fixTag_eq, hw, hstep, if_pos rfl]

end TagClaims

end EtsyAgent

namespace EtsyAgent

section TagClaimTheorems

/-- C9: the listing review's tag auto-fix guarantees that, for every input
listing whose `tags` value is a string, (a) every tag parsed from the tags
string it validates is at most 20 characters; (b) a listing whose tags are
all already within the limit is left unchanged (and nothing is rewritten);
(c) an over-long tag is truncated at a word boundary when possible (the fix
is the space-join of a nonempty prefix of its words) and by a raw
20-character cut otherwise; and (d) whenever the listing review rewrites
the listing to disk, the rewritten listing's tags are all within the
limit. -/
theorem auto_fix_tags_spec :
    (∀ (d : PyV) (s : PyStr), d.get "tags" = some (.str s) →
      ∃ s2 : PyStr, (auto_fix_tags d).1.get "tags" = some (.str s2) ∧
        ∀ t ∈ parseTagList s2, t.length ≤ ETSY_TAG_MAX_CHARS) ∧
    (∀ (d : PyV) (s : PyStr), d.get "tags" = some (.str s) →
      (∀ t ∈ parseTagList s, t.length ≤ ETSY_TAG_MAX_CHARS) →
      auto_fix_tags d = (d, false)) ∧
    (∀ (t w : PyStr) (ws : List PyStr), pyWords t = w :: ws →
      (w.length ≤ ETSY_TAG_MAX_CHARS →
        ∃ k, 1 ≤ k ∧ fixTag t = joinWords ((pyWords t).take k)) ∧
      (ETSY_TAG_MAX_CHARS < w.length →
        fixTag t = t.take ETSY_TAG_MAX_CHARS)) ∧
    (∀ (cfg : RulesConfig) (d : PyV) (l3a : Bool) (l3r : ReviewResult)
        (x : PyV),
      (listing_review_logic cfg (.ok d) l3a l3r).written = some x →
      ∃ s2 : PyStr, x.get "tags" = some (.str s2) ∧
        ∀ t ∈ parseTagList s2, t.length ≤ ETSY_TAG_MAX_CHARS) := by
  refine ⟨auto_fix_tags_bounded, auto_fix_tags_unchanged, ?_, ?_⟩
  · intro t w ws hw
    exact ⟨fixTag_word_boundary t w ws hw, fixTag_no_boundary t w ws hw⟩
  · intro cfg d l3a l3r x hx
    have hw : (listing_review_logic cfg (.ok d) l3a l3r).written =
        (if (auto_fix_tags d).2 then some (auto_fix_tags d).1
         else Option.none) := rfl
    rw [hw] at hx
    by_cases hfix : (auto_fix_tags d).2 = true
    · rw [if_pos hfix] at hx
      obtain rfl : (auto_fix_tags d).1 = x := Option.some_injective _ hx
      have hstr : ∃ s, d.get "tags" = some (.str s) := by
        by_contra hno
        push_neg at hno
        have : auto_fix_tags d = (d, false) := by
          unfold auto_fix_tags
          rcases hget : d.get "tags" with _ | v
          · rfl
          · cases v with
            | str s => exact absurd hget (by simpa using hno s)
            | num n => rfl
            | bool b => rfl
            | list l => rfl
            | dict l => rfl
            | none => rfl
        rw [this] at hfix
        exact Bool.noConfusion hfix
      obtain ⟨s, hs⟩ := hstr
      exact auto_fix_tags_bounded d s hs
    · rw [if_neg hfix] at hx
      exact Option.noConfusion hx

/-- Witness for C9 at a concrete over-long tag. -/
theorem auto_fix_tags_spec_witness :
    exampleOverlongListing.get "tags" =
      some (.str "moissanite engagement, ring".toList) ∧
    (∃ s2 : PyStr,
      (auto_fix_tags exampleOverlongListing).1.get "tags" =
        some (.str s2) ∧
      ∀ t ∈ parseTagList s2, t.length ≤ ETSY_TAG_MAX_CHARS) ∧
    pyWords "moissanite engagement".toList =
      ["moissanite".toList, "engagement".toList] ∧
    (∃ k, 1 ≤ k ∧ fixTag "moissanite engagement".toList =
      joinWords ((pyWords "moissanite engagement".toList).take k)) := by
  have h := auto_fix_tags_spec
  refine ⟨rfl, ?_, by decide, ?_⟩
  · exact h.1 exampleOverlongListing "moissanite engagement, ring".toList rfl
  · exact (h.2.2.1 "moissanite engagement".toList "moissanite".toList
      ["engagement".toList] (by decide)).1 (by decide)

end TagClaimTheorems

end EtsyAgent
